import Mathlib

/-!
Verification development for the sheet-backed data-access layer of
`server.js` (car-dealer storefront platform).

The JavaScript source is shallowly embedded: the Google-Sheets store is a
list of named tabs, each a grid row count plus a list of rows of cell
strings; every repository function from `server.js` is transcribed as a
pure Lean function threading the spreadsheet state and counting the write
calls it issues (`values.update`, `values.append`, `batchUpdate`).
Randomness (`crypto.randomBytes`, `Math.random`), the clock (`nowIso`) and
the PBKDF2 derivation are passed in as explicit arguments, which is the
only deviation from the source, noted at each definition.
-/

namespace CarSales

/-- JS string falsy-or `a || b`: only the empty string is falsy. -/
def jsOr (a b : String) : String := if a = "" then b else a

@[simp] theorem jsOr_empty (b : String) : jsOr "" b = b := rfl

theorem jsOr_of_ne_empty {a : String} (h : a ≠ "") (b : String) : jsOr a b = a := by
  simp [jsOr, h]

/-- ASCII whitespace recognised by the model of `String.prototype.trim`.
(JS also trims some exotic Unicode spaces; all data in this system is
ASCII, where the two notions agree.) -/
def isJsSpace (c : Char) : Bool := c == ' ' || c == '\t' || c == '\n' || c == '\r'

/-- Drop elements satisfying `p` from the end of a list. -/
def dropTrailingWhile (p : α → Bool) (l : List α) : List α :=
  (l.reverse.dropWhile p).reverse

@[simp] theorem dropTrailingWhile_nil (p : α → Bool) : dropTrailingWhile p [] = [] := rfl

theorem List.dropWhile_dropWhile (p : α → Bool) (l : List α) :
    (l.dropWhile p).dropWhile p = l.dropWhile p := by
  induction l with
  | nil => rfl
  | cons c t ih =>
    by_cases hp : p c
    · simp [List.dropWhile_cons, hp, ih]
    · simp [List.dropWhile_cons, hp]

theorem dropTrailingWhile_idem (p : α → Bool) (l : List α) :
    dropTrailingWhile p (dropTrailingWhile p l) = dropTrailingWhile p l := by
  simp [dropTrailingWhile, List.dropWhile_dropWhile]

theorem head?_dropWhile (p : α → Bool) (l : List α) :
    ∀ x ∈ (l.dropWhile p).head?, p x = false := by
  induction l with
  | nil => simp
  | cons c t ih =>
    by_cases hp : p c
    · simpa [List.dropWhile_cons, hp] using ih
    · rw [List.dropWhile_cons, if_neg hp]
      intro x hx
      simp at hx
      subst hx
      simpa using hp

theorem dropTrailingWhile_prefix (p : α → Bool) (l : List α) :
    ∃ t, l = dropTrailingWhile p l ++ t := by
  obtain ⟨t, ht⟩ := List.dropWhile_suffix (l := l.reverse) p
  refine ⟨t.reverse, ?_⟩
  have h : (t ++ l.reverse.dropWhile p).reverse = l := by rw [ht, List.reverse_reverse]
  simpa [List.reverse_append, dropTrailingWhile] using h.symm

theorem head?_of_append {l₁ l₂ : List α} (t : List α) (h : l₂ = l₁ ++ t) (hne : l₁ ≠ []) :
    l₂.head? = l₁.head? := by
  subst h
  cases l₁ with
  | nil => exact absurd rfl hne
  | cons a l => simp

theorem dropWhile_eq_self_of_head? (p : α → Bool) (l : List α)
    (h : ∀ x ∈ l.head?, p x = false) : l.dropWhile p = l := by
  cases l with
  | nil => rfl
  | cons a t =>
    have ha : p a = false := h a (by simp)
    simp [List.dropWhile_cons, ha]

/-- Characters of a JS-style trim: strip leading and trailing whitespace. -/
def trimChars (l : List Char) : List Char :=
  dropTrailingWhile isJsSpace (l.dropWhile isJsSpace)

/-- Model of `String.prototype.trim()`. -/
def jsTrim (s : String) : String := ⟨trimChars s.data⟩

theorem trimChars_idem (l : List Char) : trimChars (trimChars l) = trimChars l := by
  unfold trimChars
  have hfix : (dropTrailingWhile isJsSpace (l.dropWhile isJsSpace)).dropWhile isJsSpace
      = dropTrailingWhile isJsSpace (l.dropWhile isJsSpace) := by
    apply dropWhile_eq_self_of_head?
    intro x hx
    rcases hd : dropTrailingWhile isJsSpace (l.dropWhile isJsSpace) with _ | ⟨a, t⟩
    · rw [hd] at hx
      simp at hx
    · obtain ⟨t', ht'⟩ := dropTrailingWhile_prefix isJsSpace (l.dropWhile isJsSpace)
      rw [hd] at ht' hx
      have hh : (l.dropWhile isJsSpace).head? = (a :: t).head? :=
        head?_of_append t' ht' (by simp)
      simp at hx
      subst hx
      apply head?_dropWhile isJsSpace l
      rw [hh]
      simp
  rw [hfix, dropTrailingWhile_idem]

theorem jsTrim_idem (s : String) : jsTrim (jsTrim s) = jsTrim s := by
  simp [jsTrim, trimChars_idem]

/-- Model of `String.prototype.toLowerCase()` (ASCII fragment). -/
def jsLower (s : String) : String := ⟨s.data.map Char.toLower⟩

/-- Model of `String.prototype.toUpperCase()` (ASCII fragment). -/
def jsUpper (s : String) : String := ⟨s.data.map Char.toUpper⟩

theorem dropWhile_eq_self_of_none (p : α → Bool) (l : List α)
    (h : ∀ x ∈ l, p x = false) : l.dropWhile p = l := by
  cases l with
  | nil => rfl
  | cons a t => simp [List.dropWhile_cons, h a (by simp)]

theorem dropTrailingWhile_eq_self_of_none (p : α → Bool) (l : List α)
    (h : ∀ x ∈ l, p x = false) : dropTrailingWhile p l = l := by
  unfold dropTrailingWhile
  rw [dropWhile_eq_self_of_none]
  · exact l.reverse_reverse
  · intro x hx
    exact h x (List.mem_reverse.1 hx)

theorem trimChars_eq_self_of_no_space (l : List Char)
    (h : ∀ c ∈ l, isJsSpace c = false) : trimChars l = l := by
  unfold trimChars
  rw [dropWhile_eq_self_of_none _ _ h, dropTrailingWhile_eq_self_of_none _ _ h]

theorem jsTrim_eq_self_of_no_space (s : String)
    (h : ∀ c ∈ s.data, isJsSpace c = false) : jsTrim s = s := by
  cases s with
  | mk l => simpa [jsTrim] using congrArg String.mk (trimChars_eq_self_of_no_space l h)

/-! ### Decimal digit strings: models of JS `String(n)` and `Number(s)` -/

/-- The decimal digit character for a value below ten. -/
def decDigitChar : Nat → Char
  | 0 => '0'
  | 1 => '1'
  | 2 => '2'
  | 3 => '3'
  | 4 => '4'
  | 5 => '5'
  | 6 => '6'
  | 7 => '7'
  | 8 => '8'
  | 9 => '9'
  | _ => '*'

def decDigitVal (c : Char) : Nat := c.toNat - 48

def natDecChars (n : Nat) : List Char := (Nat.digits 10 n).reverse.map decDigitChar

/-- Model of JS `String(n)` for a natural number. -/
def natDecString (n : Nat) : String := if n = 0 then "0" else ⟨natDecChars n⟩

/-- Model of JS `String(n)` for an integer. -/
def intDecString (i : Int) : String :=
  if i < 0 then "-" ++ natDecString i.natAbs else natDecString i.natAbs

/-- A JS number as it matters to this system: an integer or `NaN`. -/
inductive JsNum where
  | nan : JsNum
  | num : Int → JsNum
deriving DecidableEq, Repr

def parseNatDigits (l : List Char) : Nat := l.foldl (fun a c => 10 * a + decDigitVal c) 0

def jsNumberChars (t : List Char) : JsNum :=
  if t = [] then .num 0
  else if t.headD ' ' = '-' then
    (if t.tail ≠ [] ∧ t.tail.all Char.isDigit then .num (-(parseNatDigits t.tail : Int)) else .nan)
  else if t.headD ' ' = '+' then
    (if t.tail ≠ [] ∧ t.tail.all Char.isDigit then .num (parseNatDigits t.tail) else .nan)
  else if t.all Char.isDigit then .num (parseNatDigits t) else .nan

/-- Model of JS `Number(s)` on the fragment this system stores: after
trimming, the empty string is `0`, an optional-sign decimal-integer literal
is its value, and anything else is `NaN`.  (Real JS additionally accepts
fraction/exponent/hex forms; the encoders in `server.js` only ever write
optional-sign integer literals, so the two agree on all data the system
itself writes.) -/
def jsNumber (s : String) : JsNum := jsNumberChars (jsTrim s).data

theorem decDigitChar_val {d : Nat} (h : d < 10) : decDigitVal (decDigitChar d) = d := by
  interval_cases d <;> decide

theorem decDigitChar_isDigit {d : Nat} (h : d < 10) : (decDigitChar d).isDigit = true := by
  interval_cases d <;> decide

theorem decDigitChar_not_space {d : Nat} (h : d < 10) : isJsSpace (decDigitChar d) = false := by
  interval_cases d <;> decide

theorem parseNatDigits_append_digit (l : List Char) (c : Char) :
    parseNatDigits (l ++ [c]) = 10 * parseNatDigits l + decDigitVal c := by
  simp [parseNatDigits, List.foldl_append]

theorem parseNatDigits_rev_digits (l : List Nat) (h : ∀ d ∈ l, d < 10) :
    parseNatDigits (l.reverse.map decDigitChar) = Nat.ofDigits 10 l := by
  induction l with
  | nil => rfl
  | cons d t ih =>
    have hd : d < 10 := h d (by simp)
    have ht : ∀ x ∈ t, x < 10 := fun x hx => h x (by simp [hx])
    rw [List.reverse_cons, List.map_append]
    simp only [List.map_cons, List.map_nil]
    rw [parseNatDigits_append_digit, ih ht, decDigitChar_val hd, Nat.ofDigits_cons]
    ring

theorem natDecChars_digits (n : Nat) : ∀ c ∈ natDecChars n, c.isDigit = true := by
  intro c hc
  simp only [natDecChars, List.mem_map, List.mem_reverse] at hc
  obtain ⟨d, hd, rfl⟩ := hc
  exact decDigitChar_isDigit (Nat.digits_lt_base (by norm_num) hd)

theorem natDecString_digits (n : Nat) : ∀ c ∈ (natDecString n).data, c.isDigit = true := by
  intro c hc
  by_cases h : n = 0
  · simp [natDecString, h] at hc
    subst hc
    decide
  · simp only [natDecString, if_neg h] at hc
    exact natDecChars_digits n c hc

theorem digit_not_space {c : Char} (h : c.isDigit = true) : isJsSpace c = false := by
  by_contra hcon
  have hsp : isJsSpace c = true := by simpa using hcon
  simp only [isJsSpace, Bool.or_eq_true, beq_iff_eq] at hsp
  rcases hsp with ((rfl | rfl) | rfl) | rfl <;> exact absurd h (by decide)

theorem jsTrim_natDecString (n : Nat) : jsTrim (natDecString n) = natDecString n :=
  jsTrim_eq_self_of_no_space _ (fun c hc => digit_not_space (natDecString_digits n c hc))

theorem parseNatDigits_natDecChars (n : Nat) : parseNatDigits (natDecChars n) = n := by
  unfold natDecChars
  rw [parseNatDigits_rev_digits _ (fun d hd => Nat.digits_lt_base (by norm_num) hd)]
  exact Nat.ofDigits_digits 10 n

theorem jsNumberChars_of_digits (l : List Char) (hne : l ≠ [])
    (hdig : ∀ c ∈ l, c.isDigit = true) :
    jsNumberChars l = .num (parseNatDigits l) := by
  obtain ⟨a, t, rfl⟩ : ∃ a t, l = a :: t := by
    rcases l with _ | ⟨a, t⟩
    · exact absurd rfl hne
    · exact ⟨a, t, rfl⟩
  have ha : a.isDigit = true := hdig a (by simp)
  have ha1 : a ≠ '-' := by rintro rfl; exact absurd ha (by decide)
  have ha2 : a ≠ '+' := by rintro rfl; exact absurd ha (by decide)
  rw [jsNumberChars, if_neg (by simp), if_neg (by simpa using ha1),
    if_neg (by simpa using ha2), if_pos (List.all_eq_true.2 hdig)]

theorem jsNumberChars_neg_digits (l : List Char) (hne : l ≠ [])
    (hdig : ∀ c ∈ l, c.isDigit = true) :
    jsNumberChars ('-' :: l) = .num (-(parseNatDigits l : Int)) := by
  have hcond : ('-' :: l).tail ≠ [] ∧ ('-' :: l).tail.all Char.isDigit = true := by
    rw [List.tail_cons]
    exact ⟨hne, List.all_eq_true.2 hdig⟩
  rw [jsNumberChars, if_neg (by simp), if_pos (by simp), if_pos hcond, List.tail_cons]

theorem jsNumber_natDecString (n : Nat) : jsNumber (natDecString n) = .num n := by
  by_cases h : n = 0
  · subst h
    decide
  · have hne : natDecChars n ≠ [] := by
      simp only [natDecChars, ne_eq, List.map_eq_nil_iff, List.reverse_eq_nil_iff]
      simpa using Nat.digits_ne_nil_iff_ne_zero.2 h
    have hdata : (natDecString n).data = natDecChars n := by
      simp [natDecString, if_neg h]
    rw [jsNumber, jsTrim_natDecString, hdata,
      jsNumberChars_of_digits _ hne (natDecChars_digits n), parseNatDigits_natDecChars]

theorem jsNumber_intDecString (i : Int) : jsNumber (intDecString i) = .num i := by
  by_cases h : i < 0
  · have habs : i.natAbs ≠ 0 := by omega
    have hdata : (intDecString i).data = '-' :: natDecChars i.natAbs := by
      simp only [intDecString, if_pos h, natDecString, if_neg habs]
      rw [String.data_append]
      rfl
    have hdig : ∀ c ∈ natDecChars i.natAbs, c.isDigit = true := natDecChars_digits _
    have hne : natDecChars i.natAbs ≠ [] := by
      simp only [natDecChars, ne_eq, List.map_eq_nil_iff, List.reverse_eq_nil_iff]
      simpa using Nat.digits_ne_nil_iff_ne_zero.2 habs
    have htrim : jsTrim (intDecString i) = intDecString i := by
      apply jsTrim_eq_self_of_no_space
      rw [hdata]
      intro c hc
      rcases List.mem_cons.1 hc with rfl | hc'
      · decide
      · exact digit_not_space (hdig c hc')
    rw [jsNumber, htrim, hdata, jsNumberChars_neg_digits _ hne hdig,
      parseNatDigits_natDecChars]
    congr 1
    omega
  · have heq : intDecString i = natDecString i.natAbs := by simp [intDecString, h]
    rw [heq, jsNumber_natDecString]
    congr 1
    omega

/-- Model of `gen6()`: `String(Math.floor(100000 + Math.random() * 900000))`.
The random draw is abstracted as an arbitrary natural number `r`, reduced
into the same range `[100000, 999999]` that the JS expression produces. -/
def gen6 (r : Nat) : String := natDecString (100000 + r % 900000)

theorem natDecString_length {n : Nat} (h1 : 100000 ≤ n) (h2 : n < 1000000) :
    (natDecString n).length = 6 := by
  have hn : n ≠ 0 := by omega
  have hlen : (Nat.digits 10 n).length = 6 := by
    rw [Nat.digits_len 10 n (by norm_num) hn]
    have : Nat.log 10 n = 5 := by
      apply Nat.log_eq_of_pow_le_of_lt_pow <;> norm_num <;> omega
    omega
  simp [natDecString, if_neg hn, String.length, natDecChars, hlen]

theorem gen6_length (r : Nat) : (gen6 r).length = 6 := by
  have h := Nat.mod_lt r (show 0 < 900000 by norm_num)
  exact natDecString_length (by omega) (by omega)

theorem gen6_digits (r : Nat) : ∀ c ∈ (gen6 r).data, c.isDigit = true :=
  natDecString_digits _

/-! ### Hex strings: models of `crypto.randomBytes(k).toString("hex")` -/

def hexCharLower : Nat → Char
  | 0 => '0'
  | 1 => '1'
  | 2 => '2'
  | 3 => '3'
  | 4 => '4'
  | 5 => '5'
  | 6 => '6'
  | 7 => '7'
  | 8 => '8'
  | 9 => '9'
  | 10 => 'a'
  | 11 => 'b'
  | 12 => 'c'
  | 13 => 'd'
  | 14 => 'e'
  | 15 => 'f'
  | _ => '*'

def byteHexLower (b : Nat) : List Char := [hexCharLower (b / 16), hexCharLower (b % 16)]

/-- `Buffer.prototype.toString("hex")`: two lowercase hex digits per byte. -/
def bytesHexLower (bs : List Nat) : List Char := (bs.map byteHexLower).flatten

def isUpperHexChar (c : Char) : Bool := c.isDigit || ('A' ≤ c && c ≤ 'F')

def isLowerHexChar (c : Char) : Bool := c.isDigit || ('a' ≤ c && c ≤ 'f')

theorem hexCharLower_isLower {d : Nat} (h : d < 16) : isLowerHexChar (hexCharLower d) = true := by
  interval_cases d <;> decide

theorem hexCharLower_toUpper_isUpper {d : Nat} (h : d < 16) :
    isUpperHexChar (Char.toUpper (hexCharLower d)) = true := by
  interval_cases d <;> decide

theorem bytesHexLower_length (bs : List Nat) : (bytesHexLower bs).length = 2 * bs.length := by
  induction bs with
  | nil => rfl
  | cons b t ih => simp [bytesHexLower, byteHexLower] at ih ⊢; omega

theorem bytesHexLower_mem {bs : List Nat} (h : ∀ b ∈ bs, b < 256) :
    ∀ c ∈ bytesHexLower bs, isLowerHexChar c = true := by
  intro c hc
  simp only [bytesHexLower, List.mem_flatten, List.mem_map] at hc
  obtain ⟨l, ⟨b, hb, rfl⟩, hcl⟩ := hc
  have hb256 : b < 256 := h b hb
  have h1 : b / 16 < 16 := by omega
  have h2 : b % 16 < 16 := by omega
  simp only [byteHexLower, List.mem_cons, List.mem_singleton] at hcl
  rcases hcl with rfl | rfl | hfalse
  · exact hexCharLower_isLower h1
  · exact hexCharLower_isLower h2
  · simp at hfalse

/-! ### JSON string arrays: models of `JSON.stringify` and `JSON.parse`

`server.js` serialises vehicle image lists with `JSON.stringify(images)`
(always an array of strings) and reads them back through
`safeParseJsonArray`, which runs `JSON.parse` and degrades any failure or
non-array result to `[]`.  The model below covers exactly the JSON
fragment the system writes: arrays of JSON strings.  Parsing anything
outside that fragment yields `none` (and hence `[]` through
`safeParseJsonArray`), matching real `JSON.parse` on every malformed
input; the one divergence is a well-formed array with non-string members
such as `"[1]"`, which JS would keep and this model drops — a value the
system itself never writes. -/

/-- Escape one character the way `JSON.stringify` does. -/
def escapeJsonChar (c : Char) : List Char :=
  if c = '"' then ['\\', '"']
  else if c = '\\' then ['\\', '\\']
  else if c = '\n' then ['\\', 'n']
  else if c = '\r' then ['\\', 'r']
  else if c = '\t' then ['\\', 't']
  else if c.toNat = 8 then ['\\', 'b']
  else if c.toNat = 12 then ['\\', 'f']
  else if c.toNat < 32 then
    ['\\', 'u', '0', '0', hexCharLower (c.toNat / 16), hexCharLower (c.toNat % 16)]
  else [c]

def quoteJsonString (s : String) : List Char :=
  '"' :: ((s.data.map escapeJsonChar).flatten ++ ['"'])

def stringifyRestChars (xs : List String) : List Char :=
  (xs.map (fun x => ',' :: quoteJsonString x)).flatten ++ [']']

/-- Model of `JSON.stringify` on a list of strings:
`"[" + elements joined by "," + "]"` with each element quoted. -/
def stringifyStringList (xs : List String) : String :=
  match xs with
  | [] => "[]"
  | x :: rest => ⟨'[' :: (quoteJsonString x ++ stringifyRestChars rest)⟩

def jsonHexVal (c : Char) : Option Nat :=
  if '0' ≤ c ∧ c ≤ '9' then some (c.toNat - 48)
  else if 'a' ≤ c ∧ c ≤ 'f' then some (c.toNat - 87)
  else if 'A' ≤ c ∧ c ≤ 'F' then some (c.toNat - 55)
  else none

def unescapeJsonChar (e : Char) : Option Char :=
  if e = '"' then some '"'
  else if e = '\\' then some '\\'
  else if e = '/' then some '/'
  else if e = 'n' then some '\n'
  else if e = 'r' then some '\r'
  else if e = 't' then some '\t'
  else if e = 'b' then some (Char.ofNat 8)
  else if e = 'f' then some (Char.ofNat 12)
  else none

/-- Parse the body of a JSON string (after the opening quote), returning
the decoded characters and the remaining input after the closing quote. -/
def parseJsonStringBody : List Char → Option (List Char × List Char)
  | [] => none
  | c :: r =>
    if c = '"' then some ([], r)
    else if c = '\\' then
      match r with
      | [] => none
      | e :: r2 =>
        if e = 'u' then
          match r2 with
          | a :: b :: x :: y :: r3 =>
            match jsonHexVal a, jsonHexVal b, jsonHexVal x, jsonHexVal y with
            | some va, some vb, some vx, some vy =>
              let n := ((va * 16 + vb) * 16 + vx) * 16 + vy
              if n < 0xd800 then
                (parseJsonStringBody r3).map (fun pr => (Char.ofNat n :: pr.1, pr.2))
              else none
            | _, _, _, _ => none
          | _ => none
        else
          match unescapeJsonChar e with
          | some u => (parseJsonStringBody r2).map (fun pr => (u :: pr.1, pr.2))
          | none => none
    else if c.toNat < 32 then none
    else (parseJsonStringBody r).map (fun pr => (c :: pr.1, pr.2))
termination_by l => l.length
decreasing_by all_goals simp_arith [List.length_cons]

def skipWs (l : List Char) : List Char := l.dropWhile isJsSpace

/-- Parse the continuation of a JSON string array after one element:
either `]` or `, <string> ...`, with interleaved whitespace. -/
def parseJsonArrayRest : Nat → List Char → Option (List String × List Char)
  | 0, _ => none
  | fuel + 1, l =>
    match skipWs l with
    | ']' :: r => some ([], r)
    | ',' :: r =>
      match skipWs r with
      | '"' :: r2 =>
        match parseJsonStringBody r2 with
        | some (s, rest) =>
          match parseJsonArrayRest fuel rest with
          | some (xs, fin) => some (⟨s⟩ :: xs, fin)
          | none => none
        | none => none
      | _ => none
    | _ => none

/-- Model of `JSON.parse` restricted to arrays of strings (see the section
comment); `none` models a parse exception or a non-array result. -/
def parseJsonStringArray (s : String) : Option (List String) :=
  match skipWs s.data with
  | '[' :: r =>
    (match skipWs r with
     | ']' :: r2 => if skipWs r2 = [] then some [] else none
     | '"' :: r2 =>
       (match parseJsonStringBody r2 with
        | some (x, rest) =>
          (match parseJsonArrayRest (rest.length + 1) rest with
           | some (xs, fin) => if skipWs fin = [] then some (⟨x⟩ :: xs) else none
           | none => none)
        | none => none)
     | _ => none)
  | _ => none

/-- Model of `safeParseJsonArray` (server.js:219-226):
`JSON.parse(v || "[]")` guarded by `Array.isArray`, any failure giving `[]`. -/
def safeParseJsonArray (v : String) : List String :=
  match parseJsonStringArray (jsOr v "[]") with
  | some xs => xs
  | none => []

theorem jsonHexVal_hexCharLower {d : Nat} (h : d < 16) :
    jsonHexVal (hexCharLower d) = some d := by
  interval_cases d <;> decide

theorem parseJsonStringBody_escaped (s : List Char) (rest : List Char) :
    parseJsonStringBody ((s.map escapeJsonChar).flatten ++ '"' :: rest) = some (s, rest) := by
  induction s with
  | nil =>
    rw [List.map_nil, List.flatten_nil, List.nil_append, parseJsonStringBody.eq_def]
    simp
  | cons c t ih =>
    rw [List.map_cons, List.flatten_cons, List.append_assoc]
    by_cases h1 : c = '"'
    · subst h1
      rw [show escapeJsonChar '"' = ['\\', '"'] from rfl]
      simp only [List.cons_append, List.nil_append]
      rw [parseJsonStringBody.eq_def]
      simp [unescapeJsonChar, ih]
    · by_cases h2 : c = '\\'
      · subst h2
        rw [show escapeJsonChar '\\' = ['\\', '\\'] from rfl]
        simp only [List.cons_append, List.nil_append]
        rw [parseJsonStringBody.eq_def]
        simp [unescapeJsonChar, ih]
      · by_cases h3 : c = '\n'
        · subst h3
          rw [show escapeJsonChar '\n' = ['\\', 'n'] from rfl]
          simp only [List.cons_append, List.nil_append]
          rw [parseJsonStringBody.eq_def]
          simp [unescapeJsonChar, ih]
        · by_cases h4 : c = '\r'
          · subst h4
            rw [show escapeJsonChar '\r' = ['\\', 'r'] from rfl]
            simp only [List.cons_append, List.nil_append]
            rw [parseJsonStringBody.eq_def]
            simp [unescapeJsonChar, ih]
          · by_cases h5 : c = '\t'
            · subst h5
              rw [show escapeJsonChar '\t' = ['\\', 't'] from rfl]
              simp only [List.cons_append, List.nil_append]
              rw [parseJsonStringBody.eq_def]
              simp [unescapeJsonChar, ih]
            · by_cases h6 : c.toNat = 8
              · have hc : c = Char.ofNat 8 := by rw [← h6, Char.ofNat_toNat]
                subst hc
                rw [show escapeJsonChar (Char.ofNat 8) = ['\\', 'b'] from rfl]
                simp only [List.cons_append, List.nil_append]
                rw [parseJsonStringBody.eq_def]
                simp [unescapeJsonChar, ih]
              · by_cases h7 : c.toNat = 12
                · have hc : c = Char.ofNat 12 := by rw [← h7, Char.ofNat_toNat]
                  subst hc
                  rw [show escapeJsonChar (Char.ofNat 12) = ['\\', 'f'] from rfl]
                  simp only [List.cons_append, List.nil_append]
                  rw [parseJsonStringBody.eq_def]
                  simp [unescapeJsonChar, ih]
                · by_cases h8 : c.toNat < 32
                  · have hesc : escapeJsonChar c =
                        ['\\', 'u', '0', '0', hexCharLower (c.toNat / 16),
                          hexCharLower (c.toNat % 16)] := by
                      simp [escapeJsonChar, h1, h2, h3, h4, h5, h6, h7, h8]
                    rw [hesc]
                    have hdiv : c.toNat / 16 < 16 := by omega
                    have hmod : c.toNat % 16 < 16 := by omega
                    have hv1 := jsonHexVal_hexCharLower hdiv
                    have hv2 := jsonHexVal_hexCharLower hmod
                    simp only [List.cons_append, List.nil_append]
                    rw [parseJsonStringBody.eq_def]
                    simp [hv1, hv2, show jsonHexVal '0' = some 0 from by decide, ih]
                    rw [show c.toNat / 16 * 16 + c.toNat % 16 = c.toNat from by omega]
                    exact ⟨by omega, Char.ofNat_toNat c⟩
                  · have hesc : escapeJsonChar c = [c] := by
                      simp [escapeJsonChar, h1, h2, h3, h4, h5, h6, h7, h8]
                    rw [hesc]
                    simp only [List.cons_append, List.nil_append]
                    rw [parseJsonStringBody.eq_def]
                    simp [h1, h2, h8, ih]

theorem skipWs_cons_of_not_space {c : Char} (h : isJsSpace c = false) (l : List Char) :
    skipWs (c :: l) = c :: l := by
  simp [skipWs, List.dropWhile_cons, h]

theorem parseJsonArrayRest_stringifyRest (xs : List String) (fuel : Nat)
    (h : xs.length < fuel) :
    parseJsonArrayRest fuel (stringifyRestChars xs) = some (xs, []) := by
  induction xs generalizing fuel with
  | nil =>
    obtain ⟨f, rfl⟩ : ∃ f, fuel = f + 1 := ⟨fuel - 1, by omega⟩
    rw [parseJsonArrayRest]
    rfl
  | cons y t ih =>
    obtain ⟨f, rfl⟩ : ∃ f, fuel = f + 1 := ⟨fuel - 1, by omega⟩
    have hchars : stringifyRestChars (y :: t)
        = ',' :: ('"' :: ((y.data.map escapeJsonChar).flatten
            ++ '"' :: stringifyRestChars t)) := by
      simp [stringifyRestChars, quoteJsonString]
    have hsk1 : ∀ l : List Char, skipWs (',' :: l) = ',' :: l := fun l => rfl
    have hsk2 : ∀ l : List Char, skipWs ('"' :: l) = '"' :: l := fun l => rfl
    rw [parseJsonArrayRest, hchars]
    simp only [hsk1, hsk2, parseJsonStringBody_escaped]
    rw [ih f (by simpa using Nat.lt_of_succ_lt_succ h)]

theorem stringifyRestChars_length_ge (xs : List String) :
    xs.length ≤ (stringifyRestChars xs).length := by
  induction xs with
  | nil => simp [stringifyRestChars]
  | cons y t ih =>
    have : stringifyRestChars (y :: t) = (',' :: quoteJsonString y) ++ stringifyRestChars t := by
      simp [stringifyRestChars]
    rw [this]
    simp only [List.length_append, List.length_cons]
    omega

theorem parseJsonStringArray_stringify (xs : List String) :
    parseJsonStringArray (stringifyStringList xs) = some xs := by
  cases xs with
  | nil => decide
  | cons x t =>
    have hdata : (stringifyStringList (x :: t)).data
        = '[' :: ('"' :: ((x.data.map escapeJsonChar).flatten
            ++ '"' :: stringifyRestChars t)) := by
      simp [stringifyStringList, quoteJsonString]
    have hsk1 : ∀ l : List Char, skipWs ('[' :: l) = '[' :: l := fun l => rfl
    have hsk2 : ∀ l : List Char, skipWs ('"' :: l) = '"' :: l := fun l => rfl
    rw [parseJsonStringArray, hdata]
    simp only [hsk1, hsk2, parseJsonStringBody_escaped]
    rw [parseJsonArrayRest_stringifyRest t _
      (Nat.lt_succ_of_le (stringifyRestChars_length_ge t))]
    simp only [skipWs, List.dropWhile_nil, if_pos rfl]
    cases x
    rfl

theorem stringifyStringList_ne_empty (xs : List String) : stringifyStringList xs ≠ "" := by
  cases xs with
  | nil => decide
  | cons x t =>
    intro hcon
    have := congrArg String.data hcon
    simp [stringifyStringList] at this

/-- Round-trip of the stored image list through the JSON codec. -/
theorem safeParseJsonArray_stringify (xs : List String) :
    safeParseJsonArray (stringifyStringList xs) = xs := by
  rw [safeParseJsonArray, jsOr_of_ne_empty (stringifyStringList_ne_empty xs),
    parseJsonStringArray_stringify]

/-! ### Passcode hashing: models of `hashPasscode` / `parseStoredHash` /
`verifyPasscode` (server.js:166-192).  `crypto.pbkdf2Sync` is abstracted
as a function argument `pbkdf2 : String → String → String` taking the
passcode and salt; `crypto.randomBytes(16).toString("hex")` (the fresh
salt) is likewise an argument of the callers. -/

/-- Model of JS `String.prototype.split` with a one-character separator. -/
def splitOnChar (c : Char) : List Char → List (List Char)
  | [] => [[]]
  | x :: rest =>
    if x = c then [] :: splitOnChar c rest
    else
      match splitOnChar c rest with
      | [] => [[x]]
      | h :: t => (x :: h) :: t

/-- Model of JS `String.prototype.split` with a two-character separator,
scanning left to right without overlap. -/
def splitOnPair (c1 c2 : Char) : List Char → List (List Char)
  | [] => [[]]
  | [x] => [[x]]
  | x :: y :: rest =>
    if x = c1 ∧ y = c2 then [] :: splitOnPair c1 c2 rest
    else
      match splitOnPair c1 c2 (y :: rest) with
      | [] => [[x]]
      | h :: t => (x :: h) :: t

/-- Model of JS `String.prototype.includes` for a two-character pattern. -/
def containsPair (c1 c2 : Char) : List Char → Bool
  | [] => false
  | [_] => false
  | x :: y :: rest => (x == c1 && y == c2) || containsPair c1 c2 (y :: rest)

def parseStoredHashColon (v : List Char) : Option (String × String) :=
  if v.contains ':' then
    match splitOnChar ':' v with
    | [a, b] => some (⟨a⟩, ⟨b⟩)
    | _ => none
  else none

def parseStoredHashSingle (v : List Char) : Option (String × String) :=
  if v.contains '$' then
    match (splitOnChar '$' v).filter (fun x => x ≠ []) with
    | a :: b :: _ => some (⟨a⟩, ⟨b⟩)
    | _ => parseStoredHashColon v
  else parseStoredHashColon v

/-- Model of `parseStoredHash` (server.js:171-186): try the `"$$"` format,
then the legacy `"$"` format (dropping empty segments), then `":"`. -/
def parseStoredHash (stored : String) : Option (String × String) :=
  if containsPair '$' '$' stored.data then
    match splitOnPair '$' '$' stored.data with
    | [a, b] => some (⟨a⟩, ⟨b⟩)
    | _ => parseStoredHashSingle stored.data
  else parseStoredHashSingle stored.data

/-- Model of `hashPasscode` (server.js:166-170): `salt + "$$" + derivedKeyHex`. -/
def hashPasscode (pbkdf2 : String → String → String) (passcode salt : String) : String :=
  salt ++ "$$" ++ pbkdf2 passcode salt

/-- `timingSafeEqual` under the length guard is plain byte equality. -/
def timingSafeEq (a b : String) : Bool := a == b

/-- Model of `verifyPasscode` (server.js:187-192). -/
def verifyPasscode (pbkdf2 : String → String → String) (passcode stored : String) : Bool :=
  match parseStoredHash stored with
  | none => false
  | some (salt, h) => timingSafeEq (pbkdf2 passcode salt) h

theorem splitOnPair_no_sep (c1 c2 : Char) (b : List Char) (hb : c1 ∉ b) :
    splitOnPair c1 c2 b = [b] := by
  induction b with
  | nil => rfl
  | cons x t ih =>
    have hx : x ≠ c1 := fun hcon => hb (by simp [hcon])
    cases t with
    | nil => rfl
    | cons y rest =>
      rw [splitOnPair]
      rw [if_neg (by rintro ⟨rfl, -⟩; exact hx rfl)]
      rw [ih (fun hmem => hb (by simp [hmem]))]

theorem splitOnPair_boundary (c1 c2 : Char) (a b : List Char) (ha : c1 ∉ a) :
    splitOnPair c1 c2 (a ++ c1 :: c2 :: b) = a :: splitOnPair c1 c2 b := by
  induction a with
  | nil =>
    rw [List.nil_append, splitOnPair, if_pos ⟨rfl, rfl⟩]
  | cons x t ih =>
    have hx : x ≠ c1 := fun hcon => ha (by simp [hcon])
    obtain ⟨y, rest, hy⟩ : ∃ y rest, t ++ c1 :: c2 :: b = y :: rest := by
      cases h : t ++ c1 :: c2 :: b with
      | nil => exact absurd h (by simp)
      | cons y rest => exact ⟨y, rest, rfl⟩
    rw [List.cons_append, hy, splitOnPair,
      if_neg (by rintro ⟨rfl, -⟩; exact hx rfl), ← hy,
      ih (fun hmem => ha (by simp [hmem]))]

theorem containsPair_boundary (c1 c2 : Char) (a b : List Char) :
    containsPair c1 c2 (a ++ c1 :: c2 :: b) = true := by
  induction a with
  | nil => simp [containsPair]
  | cons x t ih =>
    obtain ⟨y, rest, hy⟩ : ∃ y rest, t ++ c1 :: c2 :: b = y :: rest := by
      cases h : t ++ c1 :: c2 :: b with
      | nil => exact absurd h (by simp)
      | cons y rest => exact ⟨y, rest, rfl⟩
    rw [List.cons_append, hy, containsPair, ← hy, ih, Bool.or_true]

/-- A freshly produced `salt + "$$" + hash` record parses back into its salt
and hash whenever neither side contains a `$`. -/
theorem parseStoredHash_hashPasscode (pbkdf2 : String → String → String)
    (p salt : String) (hs : '$' ∉ salt.data) (hh : '$' ∉ (pbkdf2 p salt).data) :
    parseStoredHash (hashPasscode pbkdf2 p salt) = some (salt, pbkdf2 p salt) := by
  have hdata : (hashPasscode pbkdf2 p salt).data
      = salt.data ++ '$' :: '$' :: (pbkdf2 p salt).data := by
    simp [hashPasscode, String.data_append]
  rw [parseStoredHash, hdata, containsPair_boundary, if_pos rfl,
    splitOnPair_boundary _ _ _ _ hs, splitOnPair_no_sep _ _ _ hh]

theorem verifyPasscode_hashPasscode (pbkdf2 : String → String → String)
    (p salt : String) (hs : '$' ∉ salt.data) (hh : '$' ∉ (pbkdf2 p salt).data) :
    verifyPasscode pbkdf2 p (hashPasscode pbkdf2 p salt) = true := by
  rw [verifyPasscode, parseStoredHash_hashPasscode pbkdf2 p salt hs hh]
  simp [timingSafeEq]

/-! ### The spreadsheet store

A tab is a declared grid row count plus cell contents; `cells` is indexed
by 0-based row (sheet row 1 is index 0) and a missing row or cell reads as
the empty string.  `values.get` returns rows with trailing empty cells
trimmed and trailing all-empty rows omitted, as the Sheets API does;
`values.append` with `INSERT_ROWS` inserts after the last non-blank row of
the addressed region.  Each repository operation returns the new state,
the number of write calls issued, and its value. -/

structure Tab where
  rowCount : Nat
  cells : List (List String)
deriving DecidableEq, Repr

structure Sheet where
  tabs : List (String × Tab)
deriving DecidableEq, Repr

structure Out (α : Type) where
  state : Sheet
  writes : Nat
  val : α

def findTab (s : Sheet) (title : String) : Option Tab :=
  (s.tabs.find? (fun p => p.1 == title)).map Prod.snd

def setTab (s : Sheet) (title : String) (t : Tab) : Sheet :=
  ⟨s.tabs.map (fun p => if p.1 == title then (p.1, t) else p)⟩

/-- `addSheet`: a freshly created tab has the Sheets default grid of 1000
rows and no contents. -/
def addTab (s : Sheet) (title : String) : Sheet :=
  ⟨s.tabs ++ [(title, ⟨1000, []⟩)]⟩

def cellAt (r : List String) (i : Nat) : String := r.getD i ""

def rowIsBlank (r : List String) : Bool := r.all (fun c => c == "")

def trimRowEnd (r : List String) : List String := dropTrailingWhile (fun c => c == "") r

def dropBlankRowsEnd (rows : List (List String)) : List (List String) :=
  dropTrailingWhile (fun r => r.isEmpty) rows

/-- Model of `values.get` on rows `startIdx .. endIdx` (0-based, exclusive
end, `none` = to the end of the grid) and columns `0 .. nCols`. -/
def readRange (t : Tab) (startIdx : Nat) (endIdx : Option Nat) (nCols : Nat) :
    List (List String) :=
  let region := match endIdx with
    | none => t.cells.drop startIdx
    | some e => (t.cells.take e).drop startIdx
  dropBlankRowsEnd (region.map (fun r => trimRowEnd (r.take nCols)))

/-- A one-row read, as in the header checks:
`(existing.data.values && existing.data.values[0]) || []`. -/
def readRow (t : Tab) (rowIdx : Nat) (nCols : Nat) : List String :=
  (readRange t rowIdx (some (rowIdx + 1)) nCols).headD []

def padRows (cells : List (List String)) (n : Nat) : List (List String) :=
  cells ++ List.replicate (n - cells.length) []

/-- `values.update` of a full row range `A{r}:…{r}`. -/
def setRowCells (cells : List (List String)) (i : Nat) (row : List String) :
    List (List String) :=
  (padRows cells (i + 1)).set i row

/-- `values.update` of a single cell. -/
def setCellAt (cells : List (List String)) (i j : Nat) (v : String) : List (List String) :=
  let row := cells.getD i []
  let row2 := (row ++ List.replicate (j + 1 - row.length) "").set j v
  (padRows cells (i + 1)).set i row2

/-- Model of `values.append` with `INSERT_ROWS` on a range whose rows start
at `startIdx` (0-based): insert after the last non-blank row of the
region.  Trailing blank rows of the region are dropped rather than shifted
down; nothing in this system ever stores data after the addressed region,
and reads trim trailing blank rows, so the two are indistinguishable. -/
def appendRowAt (cells : List (List String)) (startIdx : Nat) (row : List String) :
    List (List String) :=
  padRows (cells.take startIdx) startIdx
    ++ dropTrailingWhile rowIsBlank (cells.drop startIdx) ++ [row]

/-- Environment-derived configuration (server.js:64-68). -/
structure Config where
  adminTitle : String
  settingsTitle : String
  leadsStartRow : Nat
  dealerMinRows : Nat
deriving DecidableEq, Repr

/-- The default environment: `ADMIN`, `SETTINGS`, leads at row 2000,
`DEALER_MIN_ROWS = max(1200, 2000 + 300)`. -/
def defaultConfig : Config := ⟨"ADMIN", "SETTINGS", 2000, max 1200 (2000 + 300)⟩

/-! ### Small helpers (server.js:194-247) -/

def normalizeDealerId (dealerId : String) : String := jsUpper (jsTrim dealerId)

def isTabSafeChar (c : Char) : Bool := c.isAlphanum || c == '_' || c == '-' || c == ' '

/-- `replace(/[^\w\- ]+/g, "_")`, one character at a time: the flag records
whether the previous character was part of an unsafe run, so each maximal
run becomes a single underscore. -/
def replaceUnsafeAux : Bool → List Char → List Char
  | _, [] => []
  | prevUnsafe, c :: rest =>
    if isTabSafeChar c then c :: replaceUnsafeAux false rest
    else if prevUnsafe then replaceUnsafeAux true rest
    else '_' :: replaceUnsafeAux true rest

def replaceUnsafeRuns (l : List Char) : List Char := replaceUnsafeAux false l

/-- Model of `safeDealerTabName` (server.js:204-209). -/
def safeDealerTabName (dealerId : String) : String :=
  ⟨(replaceUnsafeRuns (jsTrim (normalizeDealerId dealerId)).data).take 80⟩

/-- Model of `digitsOnly` (server.js:210-212): `replace(/\D+/g, "")`. -/
def digitsOnly (s : String) : String := ⟨s.data.filter Char.isDigit⟩

/-- Model of `isValidDealerId` (server.js:213-215):
`/^[A-Za-z]{2}\d{3}$/` on the trimmed id. -/
def isValidDealerId (dealerId : String) : Bool :=
  match (jsTrim dealerId).data with
  | [a, b, c, d, e] => a.isAlpha && b.isAlpha && c.isDigit && d.isDigit && e.isDigit
  | _ => false

/-- Model of `makeVehicleId` (server.js:216-218):
`"VEH-" + randomBytes(3).toString("hex").toUpperCase()`; the three random
bytes are an argument. -/
def makeVehicleId (bytes : List Nat) : String :=
  "VEH-" ++ jsUpper ⟨bytesHexLower bytes⟩

/-- The generated lead id (server.js:677):
`"lead_" + randomBytes(6).toString("hex")`. -/
def makeLeadId (bytes : List Nat) : String := "lead_" ++ ⟨bytesHexLower bytes⟩

/-- Model of `isHttpUrl` (server.js:245-247): `/^https?:\/\//i`. -/
def isHttpUrl (u : String) : Bool :=
  "http://".data.isPrefixOf (jsLower u).data || "https://".data.isPrefixOf (jsLower u).data

/-! ### Tab provisioning (server.js:268-417) -/

/-- Model of `ensureRows` (server.js:268-282): a structural resize; cell
contents are untouched. -/
def ensureRows (s : Sheet) (title : String) (needed : Nat) : Sheet :=
  match findTab s title with
  | some t => setTab s title ⟨needed, t.cells⟩
  | none => s

/-- Model of `ensureTab` (server.js:283-313). -/
def ensureTab (s : Sheet) (title : String) (minRows : Nat) : Out Tab :=
  match findTab s title with
  | some props =>
    let currentRows := if props.rowCount = 0 then 1000 else props.rowCount
    if currentRows < minRows then
      let s1 := ensureRows s title minRows
      ⟨s1, 1, (findTab s1 title).getD ⟨0, []⟩⟩
    else ⟨s, 0, props⟩
  | none =>
    let s1 := addTab s title
    let props2 := (findTab s1 title).getD ⟨0, []⟩
    let currentRows2 := if props2.rowCount = 0 then 1000 else props2.rowCount
    if currentRows2 < minRows then
      let s2 := ensureRows s1 title minRows
      ⟨s2, 2, (findTab s2 title).getD ⟨0, []⟩⟩
    else ⟨s1, 1, props2⟩

def joinPipe (row : List String) : String := String.intercalate "|" row

/-- The header-ensuring pattern shared by `ensureAdminSheet`,
`ensureDealerTabLayout` and `ensureSettingsSheet`: read the header row and
overwrite it unless it joins (`"|"`) identically to the expected headers. -/
def ensureHeaderRow (s : Sheet) (title : String) (rowIdx : Nat) (headers : List String) :
    Out Unit :=
  let t := (findTab s title).getD ⟨0, []⟩
  let row := readRow t rowIdx headers.length
  if joinPipe row = joinPipe headers then ⟨s, 0, ()⟩
  else ⟨setTab s title ⟨t.rowCount, setRowCells t.cells rowIdx headers⟩, 1, ()⟩

def ADMIN_HEADERS : List String :=
  ["dealerId", "name", "status", "passcodeHash", "passcode", "whatsapp", "logoUrl",
   "createdAt", "updatedAt"]

def VEHICLE_HEADERS : List String :=
  ["vehicleId", "title", "make", "model", "year", "price", "status", "notes",
   "heroImage", "heroVideo", "imagesJson", "updatedAt"]

def LEAD_HEADERS : List String :=
  ["createdAt", "leadId", "vehicleId", "type", "name", "phone", "email",
   "preferredDate", "preferredTime", "notes", "source", "status"]

def SETTINGS_HEADERS : List String := ["key", "value", "updatedAt"]

/-- Model of `ensureAdminSheet` (server.js:314-340). -/
def ensureAdminSheet (cfg : Config) (s : Sheet) : Out Unit :=
  let o1 := ensureTab s cfg.adminTitle 200
  let o2 := ensureHeaderRow o1.state cfg.adminTitle 0 ADMIN_HEADERS
  ⟨o2.state, o1.writes + o2.writes, ()⟩

/-- Model of `ensureDealerTabLayout` (server.js:341-402): the vehicle
header at sheet row 1 and the lead header at sheet row
`DEALER_LEADS_START_ROW`. -/
def ensureDealerTabLayout (cfg : Config) (s : Sheet) (dealerId : String) : Out Unit :=
  let title := safeDealerTabName dealerId
  let o1 := ensureTab s title cfg.dealerMinRows
  let o2 := ensureHeaderRow o1.state title 0 VEHICLE_HEADERS
  let o3 := ensureHeaderRow o2.state title (cfg.leadsStartRow - 1) LEAD_HEADERS
  ⟨o3.state, o1.writes + o2.writes + o3.writes, ()⟩

/-- Model of `ensureSettingsSheet` (server.js:403-417). -/
def ensureSettingsSheet (cfg : Config) (s : Sheet) : Out Unit :=
  let o1 := ensureTab s cfg.settingsTitle 50
  let o2 := ensureHeaderRow o1.state cfg.settingsTitle 0 SETTINGS_HEADERS
  ⟨o2.state, o1.writes + o2.writes, ()⟩

/-! ### Settings repository (server.js:418-469) -/

def SETTINGS_KEYS : List String := ["storefrontLogoUrl", "storefrontHeroVideoUrl"]

/-- JS object/Map assignment on a key-ordered association list: overwrite
in place or append. -/
def assocSet (l : List (String × α)) (k : String) (v : α) : List (String × α) :=
  if l.any (fun p => p.1 == k) then l.map (fun p => if p.1 == k then (k, v) else p)
  else l ++ [(k, v)]

/-- The `values` row written per settings key (server.js:450). -/
def encodeSettingsRow (k v now : String) : List String := [k, jsTrim (jsOr v ""), now]

/-- The per-row read of `getSettings` (server.js:426-429): trimmed key and
trimmed value. -/
def decodeSettingsRow (r : List String) : String × String :=
  (jsTrim (cellAt r 0), jsTrim (cellAt r 1))

/-- Model of `getSettings` (server.js:419-435). -/
def getSettings (cfg : Config) (s : Sheet) : Out (List (String × String)) :=
  let o1 := ensureSettingsSheet cfg s
  let t := (findTab o1.state cfg.settingsTitle).getD ⟨0, []⟩
  let rows := readRange t 1 none 3
  let m := rows.foldl (fun acc r =>
    let kv := decodeSettingsRow r
    if kv.1 ≠ "" ∧ kv.1 ∈ SETTINGS_KEYS then assocSet acc kv.1 kv.2
    else acc) []
  let m2 := SETTINGS_KEYS.foldl (fun acc k =>
    if acc.any (fun p => p.1 == k) then acc else acc ++ [(k, "")]) m
  ⟨o1.state, o1.writes, m2⟩

def updateSettingsLoop (cfg : Config) (rowMap : List (String × Nat)) (now : String) :
    Sheet → List (String × String) → Sheet × Nat
  | s, [] => (s, 0)
  | s, (k, v) :: rest =>
    let t := (findTab s cfg.settingsTitle).getD ⟨0, []⟩
    let values := encodeSettingsRow k v now
    let t2 := match rowMap.find? (fun p => p.1 == k) with
      | some pr => Tab.mk t.rowCount (setRowCells t.cells (pr.2 - 1) values)
      | none => Tab.mk t.rowCount (appendRowAt t.cells 0 values)
    let s2 := setTab s cfg.settingsTitle t2
    let out := updateSettingsLoop cfg rowMap now s2 rest
    (out.1, out.2 + 1)

/-- Model of `updateSettings` (server.js:436-469): filter updates to the
allow-list, update the row found by key or append, then re-read. -/
def updateSettings (cfg : Config) (s : Sheet) (updates : List (String × String))
    (now : String) : Out (List (String × String)) :=
  let o1 := ensureSettingsSheet cfg s
  let t := (findTab o1.state cfg.settingsTitle).getD ⟨0, []⟩
  let rows := readRange t 1 none 3
  let rowMap := rows.enum.foldl (fun (acc : List (String × Nat)) pr =>
    let key := jsTrim (cellAt pr.2 0)
    if key ≠ "" then assocSet acc key (pr.1 + 2) else acc) []
  let updatesArr := updates.filter (fun p => p.1 ∈ SETTINGS_KEYS)
  let loopOut := updateSettingsLoop cfg rowMap now o1.state updatesArr
  let o2 := getSettings cfg loopOut.1
  ⟨o2.state, o1.writes + loopOut.2 + o2.writes, o2.val⟩

/-! ### Dealers repository (server.js:470-530) -/

structure Dealer where
  dealerId : String
  name : String
  status : String
  passcodeHash : String
  passcode : String
  whatsapp : String
  logoUrl : String
  createdAt : String
  updatedAt : String
deriving DecidableEq, Repr

/-- Decode one admin-tab row (server.js:475-488), tolerating legacy 8-column
rows written before the plaintext `passcode` column existed. -/
def decodeDealerRow (r : List String) : Dealer :=
  if r.length ≥ 9 then
    { dealerId := cellAt r 0
      name := cellAt r 1
      status := jsLower (jsOr (cellAt r 2) "active")
      passcodeHash := cellAt r 3
      passcode := cellAt r 4
      whatsapp := cellAt r 5
      logoUrl := cellAt r 6
      createdAt := cellAt r 7
      updatedAt := cellAt r 8 }
  else
    { dealerId := cellAt r 0
      name := cellAt r 1
      status := jsLower (jsOr (cellAt r 2) "active")
      passcodeHash := cellAt r 3
      passcode := ""
      whatsapp := cellAt r 4
      logoUrl := cellAt r 5
      createdAt := cellAt r 6
      updatedAt := cellAt r 7 }

/-- The `rowValues` encoding of `adminUpsertDealer` (server.js:496-506). -/
def encodeDealerRow (d : Dealer) (now : String) : List String :=
  [d.dealerId, d.name, jsOr d.status "active", jsOr d.passcodeHash "", jsOr d.passcode "",
   jsOr d.whatsapp "", jsOr d.logoUrl "", jsOr d.createdAt now, jsOr d.updatedAt now]

/-- Model of `adminListDealers` (server.js:470-489). -/
def adminListDealers (cfg : Config) (s : Sheet) : Out (List Dealer) :=
  let o1 := ensureAdminSheet cfg s
  let t := (findTab o1.state cfg.adminTitle).getD ⟨0, []⟩
  let rows := readRange t 1 none 9
  ⟨o1.state, o1.writes, rows.map decodeDealerRow⟩

/-- Model of `adminUpsertDealer` (server.js:490-525): scan by exact
`dealerId` match, update the found row in place or append. -/
def adminUpsertDealer (cfg : Config) (s : Sheet) (dealer : Dealer) (now : String) :
    Out Unit :=
  let o1 := ensureAdminSheet cfg s
  let o2 := adminListDealers cfg o1.state
  let idx := o2.val.findIdx? (fun d => d.dealerId == dealer.dealerId)
  let rowValues := encodeDealerRow dealer now
  let t := (findTab o2.state cfg.adminTitle).getD ⟨0, []⟩
  let t2 := match idx with
    | none => Tab.mk t.rowCount (appendRowAt t.cells 0 rowValues)
    | some i => Tab.mk t.rowCount (setRowCells t.cells (i + 1) rowValues)
  ⟨setTab o2.state cfg.adminTitle t2, o1.writes + o2.writes + 1, ()⟩

/-- Model of `adminGetDealer` (server.js:526-530). -/
def adminGetDealer (cfg : Config) (s : Sheet) (dealerId : String) : Out (Option Dealer) :=
  let o := adminListDealers cfg s
  let normalized := normalizeDealerId dealerId
  ⟨o.state, o.writes, o.val.find? (fun d => normalizeDealerId d.dealerId == normalized)⟩

/-! ### Vehicles repository (server.js:531-625) -/

structure Vehicle where
  vehicleId : String
  title : String
  make : String
  model : String
  year : Option JsNum
  price : JsNum
  status : String
  notes : String
  heroImage : String
  heroVideo : String
  images : List String
  updatedAt : String
deriving DecidableEq, Repr

/-- Decode one vehicle row (server.js:541-570), tolerating legacy 11-column
rows written before the `heroVideo` column existed.  (The JS mapper also
tags each record with the `dealerId` argument; that tag is not part of the
stored row and is omitted from the record here.) -/
def decodeVehicleRow (r : List String) : Vehicle :=
  if r.length ≥ 12 then
    { vehicleId := cellAt r 0
      title := cellAt r 1
      make := cellAt r 2
      model := cellAt r 3
      year := if cellAt r 4 ≠ "" then some (jsNumber (cellAt r 4)) else none
      price := if cellAt r 5 ≠ "" then jsNumber (cellAt r 5) else .num 0
      status := cellAt r 6
      notes := cellAt r 7
      heroImage := cellAt r 8
      heroVideo := cellAt r 9
      images := safeParseJsonArray (cellAt r 10)
      updatedAt := cellAt r 11 }
  else
    { vehicleId := cellAt r 0
      title := cellAt r 1
      make := cellAt r 2
      model := cellAt r 3
      year := if cellAt r 4 ≠ "" then some (jsNumber (cellAt r 4)) else none
      price := if cellAt r 5 ≠ "" then jsNumber (cellAt r 5) else .num 0
      status := cellAt r 6
      notes := cellAt r 7
      heroImage := cellAt r 8
      heroVideo := ""
      images := safeParseJsonArray (cellAt r 9)
      updatedAt := cellAt r 10 }

/-- JS string conversion of a truthiness-guarded number field:
`x ? String(x) : ""` (`0`, `NaN` and `null` are falsy). -/
def encNum (x : JsNum) : String :=
  match x with
  | .nan => ""
  | .num n => if n = 0 then "" else intDecString n

/-- The `rowValues` encoding of `dealerUpsertVehicle` (server.js:592-605);
`updatedAt` is the fresh timestamp the function itself assigns. -/
def encodeVehicleRow (v : Vehicle) : List String :=
  [v.vehicleId, jsOr v.title "", jsOr v.make "", jsOr v.model "",
   (match v.year with | none => "" | some y => encNum y),
   encNum v.price,
   jsOr v.status "available", jsOr v.notes "", jsOr v.heroImage "", jsOr v.heroVideo "",
   stringifyStringList v.images, v.updatedAt]

/-- Model of `dealerListVehicles` (server.js:531-573): read `A2:L`, keep
rows whose first cell is non-blank after trimming, decode each. -/
def dealerListVehicles (cfg : Config) (s : Sheet) (dealerId : String) : Out (List Vehicle) :=
  let normalized := normalizeDealerId dealerId
  let tab := safeDealerTabName normalized
  let o1 := ensureDealerTabLayout cfg s normalized
  let t := (findTab o1.state tab).getD ⟨0, []⟩
  let rows := readRange t 1 none 12
  ⟨o1.state, o1.writes, (rows.filter (fun r => jsTrim (cellAt r 0) ≠ "")).map decodeVehicleRow⟩

/-- Model of `dealerUpsertVehicle` (server.js:574-625): linear scan of
`A2:L` for the first row whose trimmed first cell equals `vehicle.vehicleId`;
update that row in place, or append when not found. -/
def dealerUpsertVehicle (cfg : Config) (s : Sheet) (dealerId : String) (vehicle : Vehicle)
    (now : String) : Out Vehicle :=
  let normalized := normalizeDealerId dealerId
  let tab := safeDealerTabName normalized
  let o1 := ensureDealerTabLayout cfg s normalized
  let t := (findTab o1.state tab).getD ⟨0, []⟩
  let rows := readRange t 1 none 12
  let found := rows.findIdx? (fun r => jsTrim (cellAt r 0) == vehicle.vehicleId)
  let updated := { vehicle with updatedAt := now }
  let rowValues := encodeVehicleRow updated
  let t2 := match found with
    | none => Tab.mk t.rowCount (appendRowAt t.cells 0 rowValues)
    | some i => Tab.mk t.rowCount (setRowCells t.cells (i + 1) rowValues)
  ⟨setTab o1.state tab t2, o1.writes + 1, updated⟩

/-! ### Leads repository (server.js:626-707) -/

structure Lead where
  createdAt : String
  leadId : String
  vehicleId : String
  type : String
  name : String
  phone : String
  email : String
  preferredDate : String
  preferredTime : String
  notes : String
  source : String
  status : String
  rowNum : Nat
deriving DecidableEq, Repr

/-- Decode one lead row (server.js:637-652); `rowNum` is its 1-based sheet
row. -/
def decodeLeadRow (r : List String) (rowNum : Nat) : Lead :=
  { createdAt := cellAt r 0
    leadId := cellAt r 1
    vehicleId := cellAt r 2
    type := cellAt r 3
    name := cellAt r 4
    phone := cellAt r 5
    email := cellAt r 6
    preferredDate := cellAt r 7
    preferredTime := cellAt r 8
    notes := cellAt r 9
    source := cellAt r 10
    status := jsOr (cellAt r 11) "new"
    rowNum := rowNum }

/-- Model of `dealerListLeads` (server.js:626-654): read
`A{offset+1}:L`, decode each row with its sheet row number, keep rows with
a non-blank leadId. -/
def dealerListLeads (cfg : Config) (s : Sheet) (dealerId : String) : Out (List Lead) :=
  let normalized := normalizeDealerId dealerId
  let tab := safeDealerTabName normalized
  let o1 := ensureDealerTabLayout cfg s normalized
  let t := (findTab o1.state tab).getD ⟨0, []⟩
  let start := cfg.leadsStartRow + 1
  let rows := readRange t (start - 1) none 12
  let leads := (rows.enum.map (fun pr => decodeLeadRow pr.2 (start + pr.1))).filter
    (fun l => jsTrim l.leadId ≠ "")
  ⟨o1.state, o1.writes, leads⟩

/-- Model of `dealerUpdateLeadStatus` (server.js:655-671): find the lead by
id, then update only the single status cell `L{rowNum}`. -/
def dealerUpdateLeadStatus (cfg : Config) (s : Sheet) (dealerId leadId status : String) :
    Out (Option Lead) :=
  let normalized := normalizeDealerId dealerId
  let o1 := dealerListLeads cfg s normalized
  match o1.val.find? (fun l => l.leadId == leadId) with
  | none => ⟨o1.state, o1.writes, none⟩
  | some lead =>
    let tab := safeDealerTabName normalized
    let t := (findTab o1.state tab).getD ⟨0, []⟩
    let t2 := Tab.mk t.rowCount (setCellAt t.cells (lead.rowNum - 1) 11 status)
    ⟨setTab o1.state tab t2, o1.writes + 1, some { lead with status := status }⟩

/-- The `values` row of `dealerAppendLead` (server.js:680-695), with the
resolved `createdAt` and `leadId` taken from the record. -/
def encodeLeadRow (l : Lead) : List String :=
  [l.createdAt, l.leadId, jsOr l.vehicleId "", jsOr l.type "video", jsOr l.name "",
   jsOr l.phone "", jsOr l.email "", jsOr l.preferredDate "", jsOr l.preferredTime "",
   jsOr l.notes "", jsOr l.source "storefront", jsOr l.status "new"]

/-- Model of `dealerAppendLead` (server.js:672-707); the six random bytes
behind the generated lead id and the clock are arguments. -/
def dealerAppendLead (cfg : Config) (s : Sheet) (dealerId : String) (lead : Lead)
    (randBytes : List Nat) (now : String) : Out Lead :=
  let normalized := normalizeDealerId dealerId
  let tab := safeDealerTabName normalized
  let o1 := ensureDealerTabLayout cfg s normalized
  let leadId := jsOr lead.leadId (makeLeadId randBytes)
  let row := encodeLeadRow { lead with leadId := leadId, createdAt := now }
  let t := (findTab o1.state tab).getD ⟨0, []⟩
  let t2 := Tab.mk t.rowCount (appendRowAt t.cells cfg.leadsStartRow row)
  ⟨setTab o1.state tab t2, o1.writes + 1,
    { lead with leadId := leadId, createdAt := now, status := jsOr lead.status "new" }⟩

/-- Model of `filterPublicVehicles` (server.js:239-244). -/
def filterPublicVehicles (list : List Vehicle) : List Vehicle :=
  list.filter (fun v =>
    ["published", "available", "in_stock", "instock"].contains (jsLower (jsOr v.status "")))

/-! ### HTTP handlers relevant to the claims -/

structure VehicleBody where
  vehicleId : String
  title : String
  make : String
  model : String
  year : Option JsNum
  price : Option JsNum
  status : String
  notes : String
  heroImage : String
  heroVideo : String
  images : List String
deriving DecidableEq, Repr

/-- Model of the `POST /api/dealer/vehicles` handler (server.js:1152-1192)
after JSON body parsing: string fields carry the JS `String(x || "")`
coercions, `year`/`price` the guarded `Number(...)` conversions (`none` =
absent or empty).  `none` result = a 400 rejection before any store call;
the three random bytes behind a generated vehicle id are an argument. -/
def dealerPostVehicle (cfg : Config) (s : Sheet) (dealerId : String) (body : VehicleBody)
    (idBytes : List Nat) (now : String) : Out (Option Vehicle) :=
  let vehicleId := jsOr (jsTrim body.vehicleId) (makeVehicleId idBytes)
  let v0 : Vehicle :=
    { vehicleId := vehicleId
      title := jsTrim body.title
      make := jsTrim body.make
      model := jsTrim body.model
      year := body.year
      price := body.price.getD (.num 0)
      status := jsTrim (jsOr body.status "available")
      notes := jsTrim body.notes
      heroImage := jsTrim body.heroImage
      heroVideo := jsTrim body.heroVideo
      images := body.images
      updatedAt := "" }
  if v0.make = "" ∨ v0.model = "" then ⟨s, 0, none⟩
  else
    let hero := if v0.heroImage ≠ "" ∧ ¬ isHttpUrl v0.heroImage then "" else v0.heroImage
    let heroV := if v0.heroVideo ≠ "" ∧ ¬ isHttpUrl v0.heroVideo then "" else v0.heroVideo
    let imgs := (v0.images.filter isHttpUrl).take 7
    let hero2 := if hero = "" ∧ imgs ≠ [] then imgs.headD "" else hero
    let v1 := { v0 with heroImage := hero2, heroVideo := heroV, images := imgs }
    let o := dealerUpsertVehicle cfg s dealerId v1 now
    ⟨o.state, o.writes, some o.val⟩

structure DealerBody where
  dealerId : String
  name : String
  status : String
  whatsapp : String
  logoUrl : String
  passcode : String
deriving DecidableEq, Repr

structure CreateDealerResult where
  dealer : Dealer
  passcode : String
deriving DecidableEq, Repr

/-- Model of the `POST /api/admin/dealers` handler (server.js:959-998).
`none` = a 400 rejection issued before any store call; the `gen6` random
draw, the PBKDF2 function and the fresh salt are arguments. -/
def adminCreateDealer (pbkdf2 : String → String → String) (cfg : Config) (s : Sheet)
    (body : DealerBody) (rand : Nat) (salt : String) (now : String) :
    Out (Option CreateDealerResult) :=
  if body.dealerId = "" ∨ body.name = "" then ⟨s, 0, none⟩
  else if ¬ isValidDealerId body.dealerId then ⟨s, 0, none⟩
  else
    let normalizedDealerId := normalizeDealerId body.dealerId
    let o1 := adminGetDealer cfg s normalizedDealerId
    let existing := o1.val
    let isNew := existing.isNone
    let passcode0 := jsTrim body.passcode
    let passcode := if passcode0 = "" ∧ isNew then gen6 rand else passcode0
    let passcodeHash :=
      if passcode ≠ "" then hashPasscode pbkdf2 passcode salt
      else (existing.map Dealer.passcodeHash).getD ""
    let record : Dealer :=
      { dealerId := normalizedDealerId
        name := body.name
        status := jsLower (jsOr body.status (jsOr ((existing.map Dealer.status).getD "") "active"))
        passcodeHash := passcodeHash
        passcode := jsOr passcode ((existing.map Dealer.passcode).getD "")
        whatsapp := digitsOnly (jsOr body.whatsapp ((existing.map Dealer.whatsapp).getD ""))
        logoUrl := jsOr body.logoUrl ((existing.map Dealer.logoUrl).getD "")
        createdAt := jsOr ((existing.map Dealer.createdAt).getD "") now
        updatedAt := now }
    let o2 := adminUpsertDealer cfg o1.state record now
    let o3 := ensureDealerTabLayout cfg o2.state normalizedDealerId
    ⟨o3.state, o1.writes + o2.writes + o3.writes, some ⟨record, passcode⟩⟩

structure LeadBody where
  dealerId : String
  vehicleId : String
  type : String
  name : String
  phone : String
  email : String
  preferredDate : String
  preferredTime : String
  notes : String
  source : String
deriving DecidableEq, Repr

/-- Model of the `POST /api/public/leads` handler (server.js:1303-1336).
`none` = a 400 rejection before any store call. -/
def publicSubmitLead (cfg : Config) (s : Sheet) (body : LeadBody)
    (randBytes : List Nat) (now : String) : Out (Option Lead) :=
  let dealerId := jsTrim body.dealerId
  if dealerId = "" then ⟨s, 0, none⟩
  else if ¬ isValidDealerId dealerId then ⟨s, 0, none⟩
  else
    let lead : Lead :=
      { createdAt := ""
        leadId := ""
        vehicleId := jsTrim body.vehicleId
        type := jsTrim (jsOr body.type "video")
        name := jsTrim body.name
        phone := jsTrim body.phone
        email := jsTrim body.email
        preferredDate := jsTrim body.preferredDate
        preferredTime := jsTrim body.preferredTime
        notes := jsTrim body.notes
        source := jsTrim (jsOr body.source "storefront")
        status := "new"
        rowNum := 0 }
    if lead.name = "" ∨ lead.phone = "" then ⟨s, 0, none⟩
    else
      let normalized := normalizeDealerId dealerId
      let o1 := ensureDealerTabLayout cfg s normalized
      let o2 := dealerAppendLead cfg o1.state normalized lead randBytes now
      ⟨o2.state, o1.writes + o2.writes, some o2.val⟩

/-! ### Lemmas about trailing-trimming -/

theorem dropTrailingWhile_append_last (p : α → Bool) (xs : List α) {y : α}
    (h : p y = false) : dropTrailingWhile p (xs ++ [y]) = xs ++ [y] := by
  unfold dropTrailingWhile
  rw [List.reverse_append]
  simp only [List.reverse_cons, List.reverse_nil, List.nil_append, List.singleton_append]
  rw [List.dropWhile_cons, if_neg (by simp [h])]
  simp

theorem dropTrailingWhile_cons_not (p : α → Bool) {c : α} (l : List α)
    (h : p c = false) : dropTrailingWhile p (c :: l) = c :: dropTrailingWhile p l := by
  unfold dropTrailingWhile
  rw [List.reverse_cons, List.dropWhile_append]
  by_cases he : (l.reverse.dropWhile p).isEmpty
  · rw [if_pos he]
    rw [show [c].dropWhile p = [c] from by simp [List.dropWhile_cons, h]]
    rw [List.isEmpty_iff] at he
    simp [he]
  · rw [if_neg he]
    rw [List.reverse_append]
    simp

theorem dropTrailingWhile_eq_nil (p : α → Bool) (l : List α)
    (h : ∀ x ∈ l, p x = true) : dropTrailingWhile p l = [] := by
  unfold dropTrailingWhile
  rw [List.dropWhile_eq_nil_iff.2 (fun x hx => h x (List.mem_reverse.1 hx))]
  rfl

theorem dropTrailingWhile_decomp (p : α → Bool) (l : List α) :
    ∃ t, l = dropTrailingWhile p l ++ t ∧ ∀ x ∈ t, p x = true := by
  refine ⟨(l.reverse.takeWhile p).reverse, ?_, ?_⟩
  · conv_lhs => rw [← l.reverse_reverse]
    conv_lhs => rw [← List.takeWhile_append_dropWhile (p := p) (l := l.reverse)]
    rw [List.reverse_append]
    rfl
  · intro x hx
    exact List.mem_takeWhile_imp (List.mem_reverse.1 hx)

theorem getLast?_dropTrailingWhile (p : α → Bool) (l : List α) :
    ∀ x ∈ (dropTrailingWhile p l).getLast?, p x = false := by
  intro x hx
  rw [← List.head?_reverse] at hx
  unfold dropTrailingWhile at hx
  rw [List.reverse_reverse] at hx
  exact head?_dropWhile p l.reverse x hx

theorem dropTrailingWhile_append_all (p : α → Bool) (A T : List α)
    (hT : ∀ x ∈ T, p x = true)
    (hA : ∀ x ∈ A.getLast?, p x = false) :
    dropTrailingWhile p (A ++ T) = A := by
  unfold dropTrailingWhile
  rw [List.reverse_append, List.dropWhile_append]
  have hTrev : T.reverse.dropWhile p = [] :=
    List.dropWhile_eq_nil_iff.2 (fun x hx => hT x (List.mem_reverse.1 hx))
  rw [if_pos (by simp [hTrev])]
  have hArev : A.reverse.dropWhile p = A.reverse := by
    apply dropWhile_eq_self_of_head?
    intro x hx
    exact hA x (by rwa [List.head?_reverse] at hx)
  rw [hArev, List.reverse_reverse]

theorem dropTrailingWhile_set (p : α → Bool) (l : List α) (i : Nat) (y : α)
    (hy : p y = false) (hi : i < (dropTrailingWhile p l).length) :
    dropTrailingWhile p (l.set i y) = (dropTrailingWhile p l).set i y := by
  obtain ⟨T, hl, hT⟩ := dropTrailingWhile_decomp p l
  have hset : l.set i y = (dropTrailingWhile p l).set i y ++ T := by
    conv_lhs => rw [hl]
    rw [List.set_append_left _ _ hi]
  rw [hset]
  apply dropTrailingWhile_append_all p _ T hT
  intro x hx
  rw [List.getLast?_eq_getElem?] at hx
  rw [List.length_set] at hx
  rw [List.getElem?_set] at hx
  by_cases hix : i = (dropTrailingWhile p l).length - 1
  · rw [if_pos hix, if_pos (by omega)] at hx
    simp at hx
    subst hx
    exact hy
  · rw [if_neg hix] at hx
    rw [← List.getLast?_eq_getElem?] at hx
    exact getLast?_dropTrailingWhile p l x hx

theorem dropTrailingWhile_map (f : α → β) (p : β → Bool) (l : List α) :
    dropTrailingWhile p (l.map f) = (dropTrailingWhile (fun x => p (f x)) l).map f := by
  unfold dropTrailingWhile
  rw [← List.map_reverse, List.dropWhile_map, List.map_reverse]
  rfl

theorem dropWhile_congr_mem (p q : α → Bool) (l : List α)
    (h : ∀ x ∈ l, p x = q x) : l.dropWhile p = l.dropWhile q := by
  induction l with
  | nil => rfl
  | cons c t ih =>
    rw [List.dropWhile_cons, List.dropWhile_cons, h c (by simp)]
    by_cases hq : q c
    · rw [if_pos hq, if_pos hq, ih (fun x hx => h x (by simp [hx]))]
    · rw [if_neg hq, if_neg hq]

theorem dropTrailingWhile_congr (p q : α → Bool) (l : List α)
    (h : ∀ x ∈ l, p x = q x) : dropTrailingWhile p l = dropTrailingWhile q l := by
  unfold dropTrailingWhile
  rw [dropWhile_congr_mem p q l.reverse (fun x hx => h x (List.mem_reverse.1 hx))]

/-! ### Lemmas about the store primitives -/

theorem padRows_of_le (cells : List (List String)) (n : Nat) (h : n ≤ cells.length) :
    padRows cells n = cells := by
  simp [padRows, Nat.sub_eq_zero_of_le h]

theorem padRows_length (cells : List (List String)) (n : Nat) :
    (padRows cells n).length = max cells.length n := by
  simp [padRows]
  omega

theorem getD_padRows (cells : List (List String)) (n j : Nat) :
    (padRows cells n).getD j [] = cells.getD j [] := by
  unfold padRows
  rw [List.getD_eq_getElem?_getD, List.getD_eq_getElem?_getD]
  by_cases hj : j < cells.length
  · rw [List.getElem?_append_left hj]
  · rw [List.getElem?_append_right (le_of_not_lt hj), List.getElem?_replicate,
      List.getElem?_eq_none (le_of_not_lt hj)]
    by_cases h3 : j - cells.length < n - cells.length <;> simp [h3]

theorem trimRowEnd_eq_nil_iff (r : List String) :
    trimRowEnd r = [] ↔ ∀ c ∈ r, c = "" := by
  unfold trimRowEnd dropTrailingWhile
  rw [List.reverse_eq_nil_iff, List.dropWhile_eq_nil_iff]
  constructor
  · intro h c hc
    simpa using h c (List.mem_reverse.2 hc)
  · intro h c hc
    simpa using h c (List.mem_reverse.1 hc)

theorem trimRowEnd_isEmpty_eq (r : List String) :
    (trimRowEnd r).isEmpty = rowIsBlank r := by
  by_cases h : ∀ c ∈ r, c = ""
  · rw [List.isEmpty_iff.2 ((trimRowEnd_eq_nil_iff r).2 h)]
    rw [eq_comm]
    simp only [rowIsBlank, List.all_eq_true]
    intro c hc
    simpa using h c hc
  · have hne : trimRowEnd r ≠ [] := fun hc => h ((trimRowEnd_eq_nil_iff r).1 hc)
    have h2 : rowIsBlank r = false := by
      simp only [rowIsBlank]
      rw [List.all_eq_false]
      push_neg at h
      obtain ⟨c, hc, hcne⟩ := h
      exact ⟨c, hc, by simpa using hcne⟩
    rw [h2]
    simpa [List.isEmpty_iff] using hne

theorem trimRow_take_isEmpty {n : Nat} {r : List String} (h : r.length ≤ n) :
    (trimRowEnd (r.take n)).isEmpty = rowIsBlank r := by
  rw [List.take_of_length_le h, trimRowEnd_isEmpty_eq]

theorem readRange_none_eq (rc : Nat) (cells : List (List String)) (a n : Nat) :
    readRange ⟨rc, cells⟩ a none n
      = dropBlankRowsEnd ((cells.drop a).map (fun r => trimRowEnd (r.take n))) := rfl

theorem readRange_some_eq (rc : Nat) (cells : List (List String)) (a e n : Nat) :
    readRange ⟨rc, cells⟩ a (some e) n
      = dropBlankRowsEnd (((cells.take e).drop a).map (fun r => trimRowEnd (r.take n))) := rfl

/-- `readRow` depends only on the addressed row. -/
theorem readRow_eq (rc : Nat) (cells : List (List String)) (j n : Nat) :
    readRow ⟨rc, cells⟩ j n = trimRowEnd ((cells.getD j []).take n) := by
  unfold readRow
  rw [readRange_some_eq]
  unfold dropBlankRowsEnd
  by_cases hj : j < cells.length
  · have hregion : (cells.take (j + 1)).drop j = [cells.getD j []] := by
      rw [List.drop_take, show j + 1 - j = 1 from by omega, List.drop_eq_getElem_cons hj,
        show (1 : Nat) = 0 + 1 from rfl, List.take_succ_cons, List.take_zero]
      rw [List.getD_eq_getElem?_getD, List.getElem?_eq_getElem hj]
      rfl
    rw [hregion]
    simp only [List.map_cons, List.map_nil]
    rcases he : trimRowEnd ((cells.getD j []).take n) with _ | ⟨x, xs⟩
    · rfl
    · rfl
  · have hregion : (cells.take (j + 1)).drop j = [] := by
      apply List.drop_eq_nil_of_le
      have := List.length_take (j + 1) cells
      omega
    have hget : cells.getD j [] = [] := by
      rw [List.getD_eq_getElem?_getD, List.getElem?_eq_none (by omega)]
      rfl
    rw [hregion, hget, List.take_nil]
    rfl

theorem getD_setRowCells_self (cells : List (List String)) (i : Nat) (row : List String) :
    (setRowCells cells i row).getD i [] = row := by
  unfold setRowCells
  rw [List.getD_eq_getElem?_getD, List.getElem?_set]
  rw [if_pos rfl, if_pos (by rw [padRows_length]; omega)]
  rfl

theorem getD_setRowCells_ne (cells : List (List String)) (i j : Nat) (row : List String)
    (h : i ≠ j) : (setRowCells cells i row).getD j [] = cells.getD j [] := by
  unfold setRowCells
  rw [List.getD_eq_getElem?_getD, List.getElem?_set, if_neg h,
    ← List.getD_eq_getElem?_getD, getD_padRows]

theorem getD_appendRowAt_zero (cells : List (List String)) (row : List String)
    (hhead : rowIsBlank (cells.headD []) = false) :
    (appendRowAt cells 0 row).getD 0 [] = cells.getD 0 [] := by
  obtain ⟨c, rest, rfl⟩ : ∃ c rest, cells = c :: rest := by
    cases cells with
    | nil => simp [rowIsBlank] at hhead
    | cons c rest => exact ⟨c, rest, rfl⟩
  have happ : appendRowAt (c :: rest) 0 row
      = c :: (dropTrailingWhile rowIsBlank rest ++ [row]) := by
    unfold appendRowAt
    simp only [List.take_zero, List.drop_zero]
    rw [show padRows ([] : List (List String)) 0 = [] from rfl,
      dropTrailingWhile_cons_not _ _ (by simpa using hhead)]
    simp
  rw [happ]
  rfl

theorem drop_appendRowAt (cells : List (List String)) (startIdx : Nat) (row : List String) :
    (appendRowAt cells startIdx row).drop startIdx
      = dropTrailingWhile rowIsBlank (cells.drop startIdx) ++ [row] := by
  unfold appendRowAt
  have hlen : (padRows (cells.take startIdx) startIdx).length = startIdx := by
    rw [padRows_length]
    have := List.length_take startIdx cells
    omega
  rw [List.append_assoc]
  exact List.drop_left' hlen

theorem readRange_appendRowAt (rc rc' : Nat) (cells : List (List String))
    (startIdx nCols : Nat) (row : List String)
    (hfit : ∀ r ∈ cells.drop startIdx, r.length ≤ nCols)
    (hrow : (trimRowEnd (row.take nCols)).isEmpty = false) :
    readRange ⟨rc', appendRowAt cells startIdx row⟩ startIdx none nCols
      = readRange ⟨rc, cells⟩ startIdx none nCols ++ [trimRowEnd (row.take nCols)] := by
  rw [readRange_none_eq, readRange_none_eq]
  unfold dropBlankRowsEnd
  rw [drop_appendRowAt]
  rw [List.map_append]
  simp only [List.map_cons, List.map_nil]
  rw [dropTrailingWhile_append_last _ _ hrow]
  congr 1
  rw [dropTrailingWhile_map]
  rw [dropTrailingWhile_congr _ (fun r => rowIsBlank r) _
    (fun r hr => trimRow_take_isEmpty (hfit r hr))]

theorem length_readRange_le (rc : Nat) (cells : List (List String)) (startIdx nCols : Nat) :
    (readRange ⟨rc, cells⟩ startIdx none nCols).length ≤ cells.length - startIdx := by
  rw [readRange_none_eq]
  unfold dropBlankRowsEnd dropTrailingWhile
  have h1 := (List.dropWhile_suffix
    (l := ((cells.drop startIdx).map (fun r => trimRowEnd (r.take nCols))).reverse)
    (fun r => r.isEmpty)).sublist.length_le
  simp only [List.length_reverse, List.length_map, List.length_drop] at h1 ⊢
  omega

theorem readRange_setRowCells (rc rc' : Nat) (cells : List (List String))
    (startIdx nCols i : Nat) (row : List String)
    (hi : i < (readRange ⟨rc, cells⟩ startIdx none nCols).length)
    (hrow : (trimRowEnd (row.take nCols)).isEmpty = false) :
    readRange ⟨rc', setRowCells cells (startIdx + i) row⟩ startIdx none nCols
      = (readRange ⟨rc, cells⟩ startIdx none nCols).set i (trimRowEnd (row.take nCols)) := by
  have hlt : startIdx + i < cells.length := by
    have := length_readRange_le rc cells startIdx nCols
    omega
  unfold setRowCells
  rw [padRows_of_le _ _ (by omega)]
  rw [readRange_none_eq, readRange_none_eq]
  unfold dropBlankRowsEnd
  rw [List.drop_set, if_neg (by omega), show startIdx + i - startIdx = i from by omega,
    List.map_set]
  rw [dropTrailingWhile_set _ _ i _ hrow]
  rw [readRange_none_eq] at hi
  exact hi

/-! ### Frame and provisioning lemmas -/

theorem find?_cons_eq (p : α → Bool) (a : α) (l : List α) :
    (a :: l).find? p = if p a then some a else l.find? p := by
  rw [List.find?_cons]
  by_cases h : p a <;> simp [h]

theorem findTab_setTab_self (s : Sheet) (title : String) (t : Tab)
    (h : (findTab s title).isSome) : findTab (setTab s title t) title = some t := by
  obtain ⟨l⟩ := s
  unfold findTab setTab at *
  simp only at h ⊢
  induction l with
  | nil => simp [List.find?] at h
  | cons q l' ih =>
    by_cases hq : (q.1 == title) = true
    · rw [List.map_cons, if_pos hq, find?_cons_eq, if_pos (by simpa using hq)]
      rfl
    · rw [List.map_cons, if_neg hq, find?_cons_eq, if_neg (by simpa using hq)]
      apply ih
      rwa [find?_cons_eq, if_neg (by simpa using hq)] at h

theorem findTab_setTab_ne (s : Sheet) (title title' : String) (t : Tab)
    (h : title' ≠ title) : findTab (setTab s title t) title' = findTab s title' := by
  obtain ⟨l⟩ := s
  unfold findTab setTab
  simp only
  induction l with
  | nil => rfl
  | cons q l' ih =>
    by_cases hq : (q.1 == title) = true
    · have hq1 : q.1 = title := by simpa using hq
      have hne : ¬ ((q.1, t).1 == title') = true := by
        simp only [hq1]
        simpa using fun hc => h hc.symm
      have hne2 : ¬ (q.1 == title') = true := by
        rw [hq1]
        simpa using fun hc => h hc.symm
      rw [List.map_cons, if_pos hq, find?_cons_eq, if_neg hne, find?_cons_eq, if_neg hne2]
      exact ih
    · rw [List.map_cons, if_neg hq, find?_cons_eq, find?_cons_eq]
      by_cases hq' : (q.1 == title') = true
      · rw [if_pos hq', if_pos hq']
      · rw [if_neg hq', if_neg hq']
        exact ih

theorem findTab_addTab_self (s : Sheet) (title : String)
    (h : findTab s title = none) : findTab (addTab s title) title = some ⟨1000, []⟩ := by
  obtain ⟨l⟩ := s
  unfold findTab addTab at *
  simp only at h ⊢
  induction l with
  | nil => simp [List.find?]
  | cons q l' ih =>
    by_cases hq : (q.1 == title) = true
    · rw [find?_cons_eq, if_pos hq] at h
      simp at h
    · rw [List.cons_append, find?_cons_eq, if_neg hq]
      rw [find?_cons_eq, if_neg hq] at h
      exact ih h

theorem findTab_addTab_ne (s : Sheet) (title title' : String) (h : title' ≠ title) :
    findTab (addTab s title) title' = findTab s title' := by
  obtain ⟨l⟩ := s
  unfold findTab addTab
  simp only
  induction l with
  | nil =>
    rw [List.nil_append, find?_cons_eq, if_neg (by simpa using fun hc => h hc.symm)]
  | cons q l' ih =>
    rw [List.cons_append, find?_cons_eq, find?_cons_eq]
    by_cases hq : (q.1 == title') = true
    · rw [if_pos hq, if_pos hq]
    · rw [if_neg hq, if_neg hq]
      exact ih

/-- The tab exists with an effective grid size of at least `minRows`:
exactly the condition under which `ensureTab` issues no write. -/
def tabProvisioned (s : Sheet) (title : String) (minRows : Nat) : Prop :=
  ∃ t, findTab s title = some t ∧ minRows ≤ (if t.rowCount = 0 then 1000 else t.rowCount)

/-- The tab exists and its header row joins identically to `headers`:
exactly the condition under which the header check issues no write. -/
def headerOk (s : Sheet) (title : String) (rowIdx : Nat) (headers : List String) : Prop :=
  ∃ t, findTab s title = some t ∧
    joinPipe (readRow t rowIdx headers.length) = joinPipe headers

theorem ensureTab_noop {s : Sheet} {title : String} {minRows : Nat} {t : Tab}
    (ht : findTab s title = some t)
    (hge : minRows ≤ (if t.rowCount = 0 then 1000 else t.rowCount)) :
    ensureTab s title minRows = ⟨s, 0, t⟩ := by
  unfold ensureTab
  rw [ht]
  simp only
  rw [if_neg (by omega)]

theorem ensureHeaderRow_noop {s : Sheet} {title : String} {rowIdx : Nat}
    {headers : List String} (h : headerOk s title rowIdx headers) :
    ensureHeaderRow s title rowIdx headers = ⟨s, 0, ()⟩ := by
  obtain ⟨t, ht, hj⟩ := h
  unfold ensureHeaderRow
  rw [ht]
  simp only [Option.getD_some]
  rw [if_pos hj]

theorem findTab_ensureRows_ne (s : Sheet) (title title' : String) (n : Nat)
    (h : title' ≠ title) : findTab (ensureRows s title n) title' = findTab s title' := by
  unfold ensureRows
  cases hf : findTab s title with
  | none => rfl
  | some t => exact findTab_setTab_ne _ _ _ _ h

theorem findTab_ensureTab_ne (s : Sheet) (title title' : String) (minRows : Nat)
    (h : title' ≠ title) :
    findTab (ensureTab s title minRows).state title' = findTab s title' := by
  unfold ensureTab
  cases hf : findTab s title with
  | some t =>
    simp only
    by_cases hlt : (if t.rowCount = 0 then 1000 else t.rowCount) < minRows
    · rw [if_pos hlt]
      exact findTab_ensureRows_ne _ _ _ _ h
    · rw [if_neg hlt]
  | none =>
    simp only
    by_cases hlt : (if ((findTab (addTab s title) title).getD ⟨0, []⟩).rowCount = 0 then 1000
        else ((findTab (addTab s title) title).getD ⟨0, []⟩).rowCount) < minRows
    · rw [if_pos hlt]
      rw [findTab_ensureRows_ne _ _ _ _ h, findTab_addTab_ne _ _ _ h]
    · rw [if_neg hlt]
      exact findTab_addTab_ne _ _ _ h

theorem findTab_ensureHeaderRow_ne (s : Sheet) (title title' : String) (rowIdx : Nat)
    (headers : List String) (h : title' ≠ title) :
    findTab (ensureHeaderRow s title rowIdx headers).state title' = findTab s title' := by
  unfold ensureHeaderRow
  by_cases hj : joinPipe (readRow ((findTab s title).getD ⟨0, []⟩) rowIdx headers.length)
      = joinPipe headers
  · rw [if_pos hj]
  · rw [if_neg hj]
    exact findTab_setTab_ne _ _ _ _ h

theorem findTab_ensureDealerTabLayout_ne (cfg : Config) (s : Sheet) (dealerId title' : String)
    (h : title' ≠ safeDealerTabName dealerId) :
    findTab (ensureDealerTabLayout cfg s dealerId).state title' = findTab s title' := by
  unfold ensureDealerTabLayout
  simp only
  rw [findTab_ensureHeaderRow_ne _ _ _ _ _ h, findTab_ensureHeaderRow_ne _ _ _ _ _ h,
    findTab_ensureTab_ne _ _ _ _ h]

/-- The state of the admin tab under which `ensureAdminSheet` writes nothing. -/
def adminReady (cfg : Config) (s : Sheet) : Prop :=
  tabProvisioned s cfg.adminTitle 200 ∧ headerOk s cfg.adminTitle 0 ADMIN_HEADERS

/-- The state of a dealer tab under which `ensureDealerTabLayout` writes nothing. -/
def dealerTabReady (cfg : Config) (s : Sheet) (dealerId : String) : Prop :=
  tabProvisioned s (safeDealerTabName dealerId) cfg.dealerMinRows ∧
  headerOk s (safeDealerTabName dealerId) 0 VEHICLE_HEADERS ∧
  headerOk s (safeDealerTabName dealerId) (cfg.leadsStartRow - 1) LEAD_HEADERS

/-- The state of the settings tab under which `ensureSettingsSheet` writes nothing. -/
def settingsReady (cfg : Config) (s : Sheet) : Prop :=
  tabProvisioned s cfg.settingsTitle 50 ∧ headerOk s cfg.settingsTitle 0 SETTINGS_HEADERS

@[simp] theorem Out_state (st : Sheet) (w : Nat) (v : α) : (Out.mk st w v).state = st := rfl

@[simp] theorem Out_writes (st : Sheet) (w : Nat) (v : α) : (Out.mk st w v).writes = w := rfl

@[simp] theorem Out_val (st : Sheet) (w : Nat) (v : α) : (Out.mk st w v).val = v := rfl

@[simp] theorem Tab_rowCount (rc : Nat) (cs : List (List String)) :
    (Tab.mk rc cs).rowCount = rc := rfl

@[simp] theorem Tab_cells (rc : Nat) (cs : List (List String)) :
    (Tab.mk rc cs).cells = cs := rfl

theorem ensureAdminSheet_noop {cfg : Config} {s : Sheet} (h : adminReady cfg s) :
    ensureAdminSheet cfg s = ⟨s, 0, ()⟩ := by
  obtain ⟨⟨t, ht, hge⟩, hok⟩ := h
  simp only [ensureAdminSheet, ensureTab_noop ht hge, ensureHeaderRow_noop hok,
    Out_state, Out_writes]

theorem ensureDealerTabLayout_noop {cfg : Config} {s : Sheet} {dealerId : String}
    (h : dealerTabReady cfg s dealerId) :
    ensureDealerTabLayout cfg s dealerId = ⟨s, 0, ()⟩ := by
  obtain ⟨⟨t, ht, hge⟩, hok1, hok2⟩ := h
  simp only [ensureDealerTabLayout, ensureTab_noop ht hge, ensureHeaderRow_noop hok1,
    ensureHeaderRow_noop hok2, Out_state, Out_writes]

theorem ensureSettingsSheet_noop {cfg : Config} {s : Sheet} (h : settingsReady cfg s) :
    ensureSettingsSheet cfg s = ⟨s, 0, ()⟩ := by
  obtain ⟨⟨t, ht, hge⟩, hok⟩ := h
  simp only [ensureSettingsSheet, ensureTab_noop ht hge, ensureHeaderRow_noop hok,
    Out_state, Out_writes]

theorem tabProvisioned_ensureTab (s : Sheet) (title : String) (minRows : Nat) :
    tabProvisioned (ensureTab s title minRows).state title minRows := by
  unfold ensureTab
  cases hf : findTab s title with
  | some t =>
    simp only
    by_cases hlt : (if t.rowCount = 0 then 1000 else t.rowCount) < minRows
    · rw [if_pos hlt]
      refine ⟨⟨minRows, t.cells⟩, ?_, ?_⟩
      · simp only [Out_state]
        unfold ensureRows
        rw [hf]
        exact findTab_setTab_self s title _ (by rw [hf]; rfl)
      · simp only [Tab_rowCount]
        by_cases hm : minRows = 0 <;> simp [hm]
    · rw [if_neg hlt]
      exact ⟨t, hf, by omega⟩
  | none =>
    have hadd := findTab_addTab_self s title hf
    simp only
    rw [hadd]
    simp only [Option.getD_some, Tab_rowCount]
    by_cases hlt : (1000 : Nat) < minRows
    · rw [if_pos (by simpa using hlt)]
      refine ⟨⟨minRows, []⟩, ?_, ?_⟩
      · simp only [Out_state]
        unfold ensureRows
        rw [hadd]
        exact findTab_setTab_self _ title _ (by rw [hadd]; rfl)
      · simp only [Tab_rowCount]
        rw [if_neg (by omega)]
    · rw [if_neg (by simpa using hlt)]
      refine ⟨⟨1000, []⟩, ?_, ?_⟩
      · simp only [Out_state]
        exact hadd
      · simp only [Tab_rowCount]
        rw [if_neg (by omega)]
        omega

theorem tabProvisioned_ensureHeaderRow {s : Sheet} {title : String} {m : Nat}
    (h : tabProvisioned s title m) (title' : String) (rowIdx : Nat) (headers : List String) :
    tabProvisioned (ensureHeaderRow s title' rowIdx headers).state title m := by
  obtain ⟨t, ht, hge⟩ := h
  unfold ensureHeaderRow
  by_cases hj : joinPipe (readRow ((findTab s title').getD ⟨0, []⟩) rowIdx headers.length)
      = joinPipe headers
  · rw [if_pos hj]
    exact ⟨t, ht, hge⟩
  · rw [if_neg hj]
    simp only [Out_state]
    by_cases hT : title = title'
    · subst hT
      rw [ht]
      simp only [Option.getD_some]
      refine ⟨_, findTab_setTab_self s title _ (by rw [ht]; rfl), ?_⟩
      simpa using hge
    · refine ⟨t, ?_, hge⟩
      rw [findTab_setTab_ne _ _ _ _ hT]
      exact ht

theorem headerOk_ensureHeaderRow (s : Sheet) (title : String) (rowIdx : Nat)
    (headers : List String) (hp : (findTab s title).isSome)
    (htrim : trimRowEnd (headers.take headers.length) = headers) :
    headerOk (ensureHeaderRow s title rowIdx headers).state title rowIdx headers := by
  obtain ⟨t, ht⟩ := Option.isSome_iff_exists.1 hp
  unfold ensureHeaderRow
  rw [ht]
  simp only [Option.getD_some]
  by_cases hj : joinPipe (readRow t rowIdx headers.length) = joinPipe headers
  · rw [if_pos hj]
    exact ⟨t, ht, hj⟩
  · rw [if_neg hj]
    refine ⟨_, findTab_setTab_self s title _ (by rw [ht]; rfl), ?_⟩
    rw [readRow_eq, getD_setRowCells_self, htrim]

theorem headerOk_ensureHeaderRow_other {s : Sheet} {title : String} {rowIdx : Nat}
    {headers : List String} (h : headerOk s title rowIdx headers)
    (rowIdx2 : Nat) (headers2 : List String) (hne : rowIdx2 ≠ rowIdx) :
    headerOk (ensureHeaderRow s title rowIdx2 headers2).state title rowIdx headers := by
  obtain ⟨t, ht, hj⟩ := h
  unfold ensureHeaderRow
  rw [ht]
  simp only [Option.getD_some]
  by_cases hj2 : joinPipe (readRow t rowIdx2 headers2.length) = joinPipe headers2
  · rw [if_pos hj2]
    exact ⟨t, ht, hj⟩
  · rw [if_neg hj2]
    refine ⟨_, findTab_setTab_self s title _ (by rw [ht]; rfl), ?_⟩
    rw [readRow_eq, getD_setRowCells_ne _ _ _ _ hne, ← readRow_eq t.rowCount]
    exact hj

theorem headerOk_ensureTab_of_provisioned {s : Sheet} {title : String} {m : Nat}
    (hp : tabProvisioned s title m) (rowIdx : Nat) (headers : List String)
    (h : headerOk s title rowIdx headers) :
    headerOk (ensureTab s title m).state title rowIdx headers := by
  obtain ⟨t, ht, hge⟩ := hp
  rw [ensureTab_noop ht hge]
  exact h

theorem adminReady_ensureAdminSheet (cfg : Config) (s : Sheet) :
    adminReady cfg (ensureAdminSheet cfg s).state := by
  unfold ensureAdminSheet
  constructor
  · exact tabProvisioned_ensureHeaderRow (tabProvisioned_ensureTab s cfg.adminTitle 200) _ _ _
  · apply headerOk_ensureHeaderRow
    · obtain ⟨t, ht, -⟩ := tabProvisioned_ensureTab s cfg.adminTitle 200
      rw [ht]
      rfl
    · decide

theorem dealerTabReady_ensureDealerTabLayout (cfg : Config) (s : Sheet) (dealerId : String)
    (hrow : 2 ≤ cfg.leadsStartRow) :
    dealerTabReady cfg (ensureDealerTabLayout cfg s dealerId).state dealerId := by
  unfold ensureDealerTabLayout
  have hp1 := tabProvisioned_ensureTab s (safeDealerTabName dealerId) cfg.dealerMinRows
  have hsome : (findTab (ensureTab s (safeDealerTabName dealerId) cfg.dealerMinRows).state
      (safeDealerTabName dealerId)).isSome := by
    obtain ⟨t, ht, -⟩ := hp1
    rw [ht]
    rfl
  have hok1 := headerOk_ensureHeaderRow
    (ensureTab s (safeDealerTabName dealerId) cfg.dealerMinRows).state
    (safeDealerTabName dealerId) 0 VEHICLE_HEADERS hsome (by decide)
  have hsome2 : (findTab (ensureHeaderRow
      (ensureTab s (safeDealerTabName dealerId) cfg.dealerMinRows).state
      (safeDealerTabName dealerId) 0 VEHICLE_HEADERS).state (safeDealerTabName dealerId)).isSome := by
    obtain ⟨t, ht, -⟩ := hok1
    rw [ht]
    rfl
  refine ⟨?_, ?_, ?_⟩
  · exact tabProvisioned_ensureHeaderRow (tabProvisioned_ensureHeaderRow hp1 _ _ _) _ _ _
  · exact headerOk_ensureHeaderRow_other hok1 _ _ (by omega)
  · exact headerOk_ensureHeaderRow _ _ _ LEAD_HEADERS hsome2 (by decide)

theorem settingsReady_ensureSettingsSheet (cfg : Config) (s : Sheet) :
    settingsReady cfg (ensureSettingsSheet cfg s).state := by
  unfold ensureSettingsSheet
  constructor
  · exact tabProvisioned_ensureHeaderRow (tabProvisioned_ensureTab s cfg.settingsTitle 50) _ _ _
  · apply headerOk_ensureHeaderRow
    · obtain ⟨t, ht, -⟩ := tabProvisioned_ensureTab s cfg.settingsTitle 50
      rw [ht]
      rfl
    · decide

/-! ### Helpers for stating the claims -/

/-- The stored cell rows of a tab. -/
def tabCells (s : Sheet) (title : String) : List (List String) :=
  ((findTab s title).getD ⟨0, []⟩).cells

/-- The rows the vehicle repository reads (`A2:L` of the dealer tab). -/
def vehRowsOf (s : Sheet) (dealerId : String) : List (List String) :=
  readRange ((findTab s (safeDealerTabName (normalizeDealerId dealerId))).getD ⟨0, []⟩)
    1 none 12

/-- The rows the lead repository reads (`A{offset+1}:L` of the dealer tab). -/
def leadRowsOf (cfg : Config) (s : Sheet) (dealerId : String) : List (List String) :=
  readRange ((findTab s (safeDealerTabName (normalizeDealerId dealerId))).getD ⟨0, []⟩)
    cfg.leadsStartRow none 12

/-- The rows the dealer repository reads (`A2:I` of the admin tab). -/
def adminRowsOf (cfg : Config) (s : Sheet) : List (List String) :=
  readRange ((findTab s cfg.adminTitle).getD ⟨0, []⟩) 1 none 9

/-- The rows the settings repository reads (`A2:C` of the settings tab). -/
def settingsRowsOf (cfg : Config) (s : Sheet) : List (List String) :=
  readRange ((findTab s cfg.settingsTitle).getD ⟨0, []⟩) 1 none 3

/-- How many read rows hold a given vehicleId (trimmed first cell). -/
def countVehId (rows : List (List String)) (vid : String) : Nat :=
  rows.countP (fun r => jsTrim (cellAt r 0) == vid)

/-- `VEH-` followed by six uppercase hex digits. -/
def matchesVehicleIdFormat (s : String) : Bool :=
  s.data.length == 10 && s.data.take 4 == "VEH-".data
    && (s.data.drop 4).all isUpperHexChar

/-- `lead_` followed by twelve lowercase hex digits. -/
def matchesLeadIdFormat (s : String) : Bool :=
  s.data.length == 17 && s.data.take 5 == "lead_".data
    && (s.data.drop 5).all isLowerHexChar

/-- A vehicle record that differs only in its status, as used in the
public-filter scenario. -/
def vehWithStatus (vid status : String) : Vehicle :=
  ⟨vid, "", "", "", none, .num 0, status, "", "", "", [], ""⟩

/-! ### Claim C8 -/

/-- Claim C8: the public filter keeps exactly the vehicles whose status,
compared case-insensitively, is one of published / available / in_stock /
instock; in particular the statuses `["available", "pending", "Published",
"sold", "IN_STOCK"]` yield exactly the `available`, `Published` and
`IN_STOCK` vehicles. -/
theorem C8_public_visibility_filter :
    (∀ (l : List Vehicle) (v : Vehicle),
      v ∈ filterPublicVehicles l ↔
        v ∈ l ∧ jsLower v.status ∈ ["published", "available", "in_stock", "instock"]) ∧
    filterPublicVehicles
        [vehWithStatus "1" "available", vehWithStatus "2" "pending",
         vehWithStatus "3" "Published", vehWithStatus "4" "sold",
         vehWithStatus "5" "IN_STOCK"]
      = [vehWithStatus "1" "available", vehWithStatus "3" "Published",
         vehWithStatus "5" "IN_STOCK"] := by
  constructor
  · intro l v
    unfold filterPublicVehicles
    rw [List.mem_filter]
    have hor : jsOr v.status "" = v.status := by
      unfold jsOr
      by_cases h : v.status = "" <;> simp [h]
    rw [hor]
    constructor
    · rintro ⟨h1, h2⟩
      exact ⟨h1, by simpa using h2⟩
    · rintro ⟨h1, h2⟩
      exact ⟨h1, by simpa using h2⟩
  · decide

/-! ### Claim C6 -/

/-- Claim C6: `ensureTab(title, 2300)` on an existing tab currently sized
1000 rows yields a tab with at least 2300 rows, and the resize is purely
structural: no tab's cell contents change. -/
theorem C6_grid_growth (s : Sheet) (title : String) (t : Tab)
    (ht : findTab s title = some t) (hrc : t.rowCount = 1000) :
    2300 ≤ ((findTab (ensureTab s title 2300).state title).getD ⟨0, []⟩).rowCount ∧
    ∀ title', (findTab (ensureTab s title 2300).state title').map Tab.cells
      = (findTab s title').map Tab.cells := by
  have hstate : (ensureTab s title 2300).state = setTab s title ⟨2300, t.cells⟩ := by
    unfold ensureTab
    rw [ht]
    simp only [hrc]
    norm_num
    unfold ensureRows
    rw [ht]
  rw [hstate]
  constructor
  · rw [findTab_setTab_self s title _ (by rw [ht]; rfl)]
    rfl
  · intro title'
    by_cases hT : title' = title
    · subst hT
      rw [findTab_setTab_self s title' _ (by rw [ht]; rfl), ht]
      rfl
    · rw [findTab_setTab_ne _ _ _ _ hT]

/-- Witness for C6 at a concrete one-tab spreadsheet. -/
theorem C6_grid_growth_witness :
    2300 ≤ ((findTab (ensureTab ⟨[("T", ⟨1000, [["a"]]⟩)]⟩ "T" 2300).state "T").getD
      ⟨0, []⟩).rowCount ∧
    ∀ title', (findTab (ensureTab ⟨[("T", ⟨1000, [["a"]]⟩)]⟩ "T" 2300).state title').map
        Tab.cells
      = (findTab ⟨[("T", ⟨1000, [["a"]]⟩)]⟩ title').map Tab.cells :=
  C6_grid_growth ⟨[("T", ⟨1000, [["a"]]⟩)]⟩ "T" ⟨1000, [["a"]]⟩ (by decide) rfl

/-! ### Claim C5 -/

/-- Claim C5: provisioning is idempotent.  When a tab's grid row count
already meets the minimum and the expected header row(s) already join
(`"|"`) identically to the expected headers, `ensureTab`,
`ensureAdminSheet` and `ensureDealerTabLayout` issue no write and leave
the state unchanged; consequently a second call in a row, after any first
call, issues no write.  (For the dealer layout the configured lead offset
must be at least 2, as in any real configuration: with offset 1 the two
header rows would share sheet row 1.) -/
theorem C5_provisioning_idempotent (cfg : Config) (s : Sheet) (title : String)
    (minRows : Nat) (dealerId : String) (hlead : 2 ≤ cfg.leadsStartRow) :
    (tabProvisioned s title minRows →
      (ensureTab s title minRows).writes = 0 ∧ (ensureTab s title minRows).state = s) ∧
    (adminReady cfg s →
      (ensureAdminSheet cfg s).writes = 0 ∧ (ensureAdminSheet cfg s).state = s) ∧
    (dealerTabReady cfg s dealerId →
      (ensureDealerTabLayout cfg s dealerId).writes = 0 ∧
        (ensureDealerTabLayout cfg s dealerId).state = s) ∧
    (ensureTab (ensureTab s title minRows).state title minRows).writes = 0 ∧
    (ensureAdminSheet cfg (ensureAdminSheet cfg s).state).writes = 0 ∧
    (ensureDealerTabLayout cfg (ensureDealerTabLayout cfg s dealerId).state
      dealerId).writes = 0 := by
  refine ⟨?_, ?_, ?_, ?_, ?_, ?_⟩
  · rintro ⟨t, ht, hge⟩
    rw [ensureTab_noop ht hge]
    exact ⟨rfl, rfl⟩
  · intro h
    rw [ensureAdminSheet_noop h]
    exact ⟨rfl, rfl⟩
  · intro h
    rw [ensureDealerTabLayout_noop h]
    exact ⟨rfl, rfl⟩
  · obtain ⟨t, ht, hge⟩ := tabProvisioned_ensureTab s title minRows
    rw [ensureTab_noop ht hge]
  · rw [ensureAdminSheet_noop (adminReady_ensureAdminSheet cfg s)]
  · rw [ensureDealerTabLayout_noop (dealerTabReady_ensureDealerTabLayout cfg s dealerId hlead)]

/-- A small concrete configuration and provisioned spreadsheet used by
witnesses (the row offsets are environment-configurable in the source). -/
def cfgW : Config := ⟨"ADMIN", "SETTINGS", 3, 10⟩

def adminTabW : Tab := ⟨200, [ADMIN_HEADERS]⟩

def dealerTabW : Tab := ⟨10, [VEHICLE_HEADERS, [], LEAD_HEADERS]⟩

def sheetW : Sheet := ⟨[("ADMIN", adminTabW), ("AB123", dealerTabW)]⟩

/-- Witness for C5 at a concrete provisioned spreadsheet. -/
theorem C5_provisioning_idempotent_witness :
    (ensureTab sheetW "ADMIN" 200).writes = 0 ∧
    (ensureAdminSheet cfgW sheetW).writes = 0 ∧
    (ensureDealerTabLayout cfgW sheetW "AB123").writes = 0 :=
  have h := C5_provisioning_idempotent cfgW sheetW "ADMIN" 200 "AB123" (by decide)
  ⟨(h.1 ⟨adminTabW, by decide, by decide⟩).1,
   (h.2.1 ⟨⟨adminTabW, by decide, by decide⟩, ⟨adminTabW, by decide, by decide⟩⟩).1,
   (h.2.2.1 ⟨⟨dealerTabW, by decide, by decide⟩, ⟨dealerTabW, by decide, by decide⟩,
     ⟨dealerTabW, by decide, by decide⟩⟩).1⟩

/-! ### Claim C2: codec round trips -/

theorem jsOr_empty_right (a : String) : jsOr a "" = a := by
  unfold jsOr
  by_cases h : a = "" <;> simp [h]

theorem natDecChars_ne_nil {n : Nat} (h : n ≠ 0) : natDecChars n ≠ [] := by
  simp only [natDecChars, ne_eq, List.map_eq_nil_iff, List.reverse_eq_nil_iff]
  simpa using Nat.digits_ne_nil_iff_ne_zero.2 h

theorem natDecString_ne_empty (n : Nat) : natDecString n ≠ "" := by
  by_cases h : n = 0
  · subst h
    decide
  · unfold natDecString
    rw [if_neg h]
    intro hcon
    exact natDecChars_ne_nil h (congrArg String.data hcon)

theorem intDecString_ne_empty (i : Int) : intDecString i ≠ "" := by
  unfold intDecString
  by_cases hneg : i < 0
  · rw [if_pos hneg]
    intro hcon
    have hd := congrArg String.data hcon
    rw [String.data_append] at hd
    simp at hd
  · rw [if_neg hneg]
    exact natDecString_ne_empty _

theorem decode_encode_vehicle (v : Vehicle) (hst : v.status ≠ "")
    (hy0 : v.year ≠ some (.num 0)) (hynan : v.year ≠ some .nan) (hpnan : v.price ≠ .nan) :
    decodeVehicleRow (encodeVehicleRow v) = v := by
  obtain ⟨vid, ti, mk, mo, yr, pr, st, no, hi, hv, im, up⟩ := v
  simp only at hst hy0 hynan hpnan
  unfold encodeVehicleRow decodeVehicleRow
  rw [if_pos (by simp)]
  simp only [cellAt, List.getD_cons_zero, List.getD_cons_succ, Vehicle.mk.injEq,
    jsOr_empty_right, safeParseJsonArray_stringify, eq_self_iff_true, true_and, and_true]
  refine ⟨?_, ?_, ?_⟩
  · rcases yr with _ | y
    · simp
    · rcases y with _ | n
      · exact absurd rfl hynan
      · have hn : n ≠ 0 := fun hc => hy0 (by rw [hc])
        simp only [encNum, if_neg hn]
        rw [if_pos (intDecString_ne_empty n), jsNumber_intDecString]
  · rcases pr with _ | n
    · exact absurd rfl hpnan
    · by_cases hn : n = 0
      · subst hn
        simp [encNum]
      · simp only [encNum, if_neg hn]
        rw [if_pos (intDecString_ne_empty n), jsNumber_intDecString]
  · rw [jsOr_of_ne_empty hst]

theorem decode_encode_dealer (d : Dealer) (now : String) (hst : d.status ≠ "")
    (hlow : jsLower d.status = d.status) (hc : d.createdAt ≠ "") (hu : d.updatedAt ≠ "") :
    decodeDealerRow (encodeDealerRow d now) = d := by
  obtain ⟨di, na, st, ph, pc, wa, lo, cr, up⟩ := d
  simp only at hst hlow hc hu
  unfold encodeDealerRow decodeDealerRow
  rw [if_pos (by simp)]
  simp only [cellAt, List.getD_cons_zero, List.getD_cons_succ, Dealer.mk.injEq,
    jsOr_empty_right, eq_self_iff_true, true_and, and_true]
  exact ⟨by rw [jsOr_of_ne_empty hst, jsOr_of_ne_empty hst, hlow],
    jsOr_of_ne_empty hc now, jsOr_of_ne_empty hu now⟩

theorem decode_encode_lead (l : Lead) (ht : l.type ≠ "") (hs : l.source ≠ "")
    (hst : l.status ≠ "") : decodeLeadRow (encodeLeadRow l) l.rowNum = l := by
  obtain ⟨cr, li, vi, ty, na, ph, em, pd, pt, no, so, st, rn⟩ := l
  simp only at ht hs hst
  unfold encodeLeadRow decodeLeadRow
  simp only [cellAt, List.getD_cons_zero, List.getD_cons_succ, Lead.mk.injEq,
    jsOr_empty_right, eq_self_iff_true, true_and, and_true]
  exact ⟨jsOr_of_ne_empty ht _, jsOr_of_ne_empty hs _,
    by rw [jsOr_of_ne_empty hst, jsOr_of_ne_empty hst]⟩

theorem decode_encode_settings (k v now : String) (hk : jsTrim k = k) (hv : jsTrim v = v) :
    decodeSettingsRow (encodeSettingsRow k v now) = (k, v) := by
  unfold encodeSettingsRow decodeSettingsRow
  simp only [cellAt, List.getD_cons_zero, List.getD_cons_succ, jsOr_empty_right]
  rw [hk, jsTrim_idem, hv]

/-- Claim C2, amended: `decode(encode(record)) = record` for each entity
codec on the records the system itself produces — for vehicles, whenever
the status is non-empty and the year is neither `0` nor `NaN` and the
price is not `NaN` (JS truthiness stores those as the empty cell, which
decodes to the declared default instead); for dealers, whenever the status
is non-empty lowercase and `createdAt` / `updatedAt` are non-empty; for
leads, whenever `type` / `source` / `status` are non-empty; for settings,
whenever key and value are whitespace-trimmed.  The empty-images case
holds inside the vehicle round trip, and the legacy-short-row cases
(vehicle row without the `heroVideo` column, dealer row without the
plaintext `passcode` column) decode with that field defaulted and every
other field read from its shifted legacy position. -/
theorem C2_codec_round_trip :
    (∀ v : Vehicle, v.status ≠ "" → v.year ≠ some (.num 0) → v.year ≠ some .nan →
      v.price ≠ .nan → decodeVehicleRow (encodeVehicleRow v) = v) ∧
    (∀ a b c d e f g h i j k : String,
      decodeVehicleRow [a, b, c, d, e, f, g, h, i, j, k]
        = ⟨a, b, c, d, if e ≠ "" then some (jsNumber e) else none,
           if f ≠ "" then jsNumber f else .num 0, g, h, i, "",
           safeParseJsonArray j, k⟩) ∧
    (∀ (d : Dealer) (now : String), d.status ≠ "" → jsLower d.status = d.status →
      d.createdAt ≠ "" → d.updatedAt ≠ "" →
      decodeDealerRow (encodeDealerRow d now) = d) ∧
    (∀ a b c d e f g h : String,
      decodeDealerRow [a, b, c, d, e, f, g, h]
        = ⟨a, b, jsLower (jsOr c "active"), d, "", e, f, g, h⟩) ∧
    (∀ l : Lead, l.type ≠ "" → l.source ≠ "" → l.status ≠ "" →
      decodeLeadRow (encodeLeadRow l) l.rowNum = l) ∧
    (∀ k v now : String, jsTrim k = k → jsTrim v = v →
      decodeSettingsRow (encodeSettingsRow k v now) = (k, v)) := by
  refine ⟨decode_encode_vehicle, ?_, decode_encode_dealer, ?_, decode_encode_lead,
    decode_encode_settings⟩
  · intro a b c d e f g h i j k
    unfold decodeVehicleRow
    rw [if_neg (by simp)]
    simp [cellAt, List.getD_cons_zero, List.getD_cons_succ]
  · intro a b c d e f g h
    unfold decodeDealerRow
    rw [if_neg (by simp)]
    simp [cellAt, List.getD_cons_zero, List.getD_cons_succ]

/-- C2 as literally stated is false on the code: a vehicle record with
`year = 0` does not round-trip, because `0` is falsy in JS
(`vehicle.year ? String(vehicle.year) : ""` stores the empty cell), so the
decoder returns `null` instead of `0`. -/
theorem C2_codec_round_trip_counterexample :
    decodeVehicleRow (encodeVehicleRow
        ⟨"V1", "t", "m", "mo", some (.num 0), .num 0, "available", "", "", "", [], "x"⟩)
      ≠ ⟨"V1", "t", "m", "mo", some (.num 0), .num 0, "available", "", "", "", [], "x"⟩ := by
  decide

def vehicleW : Vehicle :=
  ⟨"VEH-0A0B0C", "T", "Make", "Model", some (.num 2020), .num 50000, "available", "n",
   "http://h", "", ["http://a", "http://b"], "2024-01-01T00:00:00.000Z"⟩

def dealerRecW : Dealer :=
  ⟨"AB123", "Best Cars", "active", "salt$$hash", "123456", "8765551234", "http://l",
   "t1", "t2"⟩

def leadRecW : Lead :=
  ⟨"t1", "lead_0102030405fa", "VEH-ABCDEF", "video", "Jane", "8765551234", "", "", "",
   "", "storefront", "new", 2001⟩

/-- Witness for C2 at concrete records of all four schemas. -/
theorem C2_codec_round_trip_witness :
    decodeVehicleRow (encodeVehicleRow vehicleW) = vehicleW ∧
    decodeDealerRow (encodeDealerRow dealerRecW "T") = dealerRecW ∧
    decodeLeadRow (encodeLeadRow leadRecW) leadRecW.rowNum = leadRecW ∧
    decodeSettingsRow (encodeSettingsRow "storefrontLogoUrl" "http://x" "T")
      = ("storefrontLogoUrl", "http://x") :=
  ⟨C2_codec_round_trip.1 vehicleW (by decide) (by decide) (by decide) (by decide),
   C2_codec_round_trip.2.2.1 dealerRecW "T" (by decide) (by decide) (by decide) (by decide),
   C2_codec_round_trip.2.2.2.2.1 leadRecW (by decide) (by decide) (by decide),
   C2_codec_round_trip.2.2.2.2.2 "storefrontLogoUrl" "http://x" "T" (by decide) (by decide)⟩

/-! ### Claim C4: decode degrades malformed data in-band -/

/-- Claim C4, amended: decoding is total and degrades malformed stored data
to in-band defaults without breaking the other rows, but the numeric
fallbacks are `NaN`, not `null` / `0`: the code reads
`r[4] ? Number(r[4]) : null`, so the `null` (resp. `0`) branch is taken
only when the cell is EMPTY, while a non-empty non-numeric cell yields
`Number(cell) = NaN`.  A malformed `imagesJson` cell decodes to the empty
list, and the decoding of a row depends on that row alone — filtering and
decoding distribute over the rows — so one corrupt row cannot break the
listing of the others. -/
theorem C4_decode_degrades_in_band :
    (∀ v : String, parseJsonStringArray (jsOr v "[]") = none → safeParseJsonArray v = []) ∧
    decodeVehicleRow ["V1", "t", "m", "mo", "abc", "xyz", "s", "n", "", "", "\x7bbad", "u"]
      = ⟨"V1", "t", "m", "mo", some .nan, .nan, "s", "n", "", "", [], "u"⟩ ∧
    (∀ pre post r,
      ((pre ++ r :: post).filter (fun row => jsTrim (cellAt row 0) ≠ "")).map
          decodeVehicleRow
        = (pre.filter (fun row => jsTrim (cellAt row 0) ≠ "")).map decodeVehicleRow
          ++ ([r].filter (fun row => jsTrim (cellAt row 0) ≠ "")).map decodeVehicleRow
          ++ (post.filter (fun row => jsTrim (cellAt row 0) ≠ "")).map decodeVehicleRow) := by
  refine ⟨?_, by decide, ?_⟩
  · intro v h
    unfold safeParseJsonArray
    rw [h]
  · intro pre post r
    have hsplit : pre ++ r :: post = pre ++ [r] ++ post := by simp
    rw [hsplit, List.filter_append, List.filter_append, List.map_append, List.map_append]

/-- C4 as stated is false on the code: a non-empty non-numeric year cell
decodes to `some NaN`, not to `null`, and a non-empty non-numeric price
cell decodes to `NaN`, not to `0`. -/
theorem C4_decode_degrades_in_band_counterexample :
    (decodeVehicleRow
        ["V1", "t", "m", "mo", "abc", "xyz", "s", "n", "", "", "\x7bbad", "u"]).year ≠ none ∧
    (decodeVehicleRow
        ["V1", "t", "m", "mo", "abc", "xyz", "s", "n", "", "", "\x7bbad", "u"]).price
      ≠ .num 0 := by
  decide

/-- Witness for C4 at the malformed JSON cell. -/
theorem C4_decode_degrades_in_band_witness :
    parseJsonStringArray (jsOr "\x7bbad" "[]") = none ∧
    safeParseJsonArray "\x7bbad" = [] :=
  ⟨by decide, C4_decode_degrades_in_band.1 "\x7bbad" (by decide)⟩

/-! ### Claim C10: not-found atomicity of the lead status update -/

/-- Claim C10, amended: on an already-provisioned dealer tab (tab present
at the required size with both header rows in place), a status update for
a `leadId` that does not occur in the tab's lead section returns `null`,
issues no store write, and leaves the spreadsheet unchanged.  Without that
provisioning premise the conclusion fails, because the update first runs
the layout-ensuring step, which itself writes. -/
theorem C10_lead_status_not_found_atomic (cfg : Config) (s : Sheet)
    (dealerId leadId status : String)
    (hfix : normalizeDealerId dealerId = dealerId)
    (hready : dealerTabReady cfg s dealerId)
    (hnf : ∀ l ∈ (dealerListLeads cfg s dealerId).val, l.leadId ≠ leadId) :
    dealerUpdateLeadStatus cfg s dealerId leadId status = ⟨s, 0, none⟩ := by
  have h1 : (dealerListLeads cfg s dealerId).state = s := by
    unfold dealerListLeads
    rw [hfix]
    simp only [ensureDealerTabLayout_noop hready, Out_state]
  have h2 : (dealerListLeads cfg s dealerId).writes = 0 := by
    unfold dealerListLeads
    rw [hfix]
    simp only [ensureDealerTabLayout_noop hready, Out_writes]
  have hfind : (dealerListLeads cfg s dealerId).val.find?
      (fun l => l.leadId == leadId) = none := by
    rw [List.find?_eq_none]
    intro x hx
    simpa using hnf x hx
  simp only [dealerUpdateLeadStatus, hfix, hfind, h1, h2]

/-- C10 as stated is false on the code without a provisioning premise: on
a spreadsheet where the dealer tab does not exist yet, the not-found
status update still returns `null` but issues provisioning writes. -/
theorem C10_lead_status_not_found_atomic_counterexample :
    (dealerUpdateLeadStatus cfgW ⟨[]⟩ "AB123" "lead_000000000000" "booked").val = none ∧
    (dealerUpdateLeadStatus cfgW ⟨[]⟩ "AB123" "lead_000000000000" "booked").writes ≠ 0 := by
  decide

/-- Witness for C10 at a concrete provisioned spreadsheet. -/
theorem C10_lead_status_not_found_atomic_witness :
    dealerUpdateLeadStatus cfgW sheetW "AB123" "lead_000000000000" "booked"
      = ⟨sheetW, 0, none⟩ :=
  C10_lead_status_not_found_atomic cfgW sheetW "AB123" "lead_000000000000" "booked"
    (by decide)
    ⟨⟨dealerTabW, by decide, by decide⟩, ⟨dealerTabW, by decide, by decide⟩,
     ⟨dealerTabW, by decide, by decide⟩⟩
    (by decide)

/-! ### Claim C9: settings key allow-list -/

theorem assocSet_keys {α : Type} {K : List String} {l : List (String × α)}
    (hl : ∀ p ∈ l, p.1 ∈ K) {k : String} (hk : k ∈ K) {v : α} :
    ∀ p ∈ assocSet l k v, p.1 ∈ K := by
  intro p hp
  unfold assocSet at hp
  by_cases h : l.any (fun q => q.1 == k)
  · rw [if_pos h] at hp
    obtain ⟨q, hq, hqe⟩ := List.mem_map.1 hp
    by_cases h2 : q.1 == k
    · rw [if_pos h2] at hqe
      rw [← hqe]
      exact hk
    · rw [if_neg h2] at hqe
      rw [← hqe]
      exact hl q hq
  · rw [if_neg h] at hp
    rcases List.mem_append.1 hp with hp | hp
    · exact hl p hp
    · rw [List.mem_singleton.1 hp]
      exact hk

theorem settingsReadFold_keys (rows : List (List String)) :
    ∀ acc : List (String × String), (∀ q ∈ acc, q.1 ∈ SETTINGS_KEYS) →
    ∀ q ∈ rows.foldl (fun acc r =>
        if (decodeSettingsRow r).1 ≠ "" ∧ (decodeSettingsRow r).1 ∈ SETTINGS_KEYS
        then assocSet acc (decodeSettingsRow r).1 (decodeSettingsRow r).2 else acc) acc,
      q.1 ∈ SETTINGS_KEYS := by
  induction rows with
  | nil =>
    intro acc h q hq
    exact h q (by simpa using hq)
  | cons r t ih =>
    intro acc h q hq
    rw [List.foldl_cons] at hq
    refine ih _ ?_ q hq
    by_cases hc : (decodeSettingsRow r).1 ≠ "" ∧ (decodeSettingsRow r).1 ∈ SETTINGS_KEYS
    · rw [if_pos hc]
      exact fun p hp => assocSet_keys h hc.2 p hp
    · rw [if_neg hc]
      exact h

theorem settingsBackfill_keys (ks : List String) (hks : ∀ k ∈ ks, k ∈ SETTINGS_KEYS) :
    ∀ acc : List (String × String), (∀ q ∈ acc, q.1 ∈ SETTINGS_KEYS) →
    ∀ q ∈ ks.foldl (fun acc k =>
        if acc.any (fun p => p.1 == k) then acc else acc ++ [(k, "")]) acc,
      q.1 ∈ SETTINGS_KEYS := by
  induction ks with
  | nil =>
    intro acc h q hq
    exact h q (by simpa using hq)
  | cons k t ih =>
    intro acc h q hq
    rw [List.foldl_cons] at hq
    refine ih (fun x hx => hks x (by simp [hx])) _ ?_ q hq
    by_cases hc : acc.any (fun p => p.1 == k)
    · rw [if_pos hc]
      exact h
    · rw [if_neg hc]
      intro p hp
      rcases List.mem_append.1 hp with hp | hp
      · exact h p hp
      · rw [List.mem_singleton.1 hp]
        exact hks k (by simp)

theorem filter_self_idem {α : Type} (p : α → Bool) (l : List α) :
    (l.filter p).filter p = l.filter p := by
  induction l with
  | nil => rfl
  | cons a t ih =>
    by_cases h : p a
    · simp [List.filter_cons, h, ih]
    · simp [List.filter_cons, h, ih]

theorem getSettings_keys (cfg : Config) (s : Sheet) :
    ∀ q ∈ (getSettings cfg s).val, q.1 ∈ SETTINGS_KEYS := by
  intro q hq
  unfold getSettings at hq
  simp only [Out_val] at hq
  exact settingsBackfill_keys SETTINGS_KEYS (fun k hk => hk) _
    (settingsReadFold_keys _ [] (by simp)) q hq

theorem updateSettings_filter_eq (cfg : Config) (s : Sheet)
    (updates : List (String × String)) (now : String) :
    updateSettings cfg s updates now
      = updateSettings cfg s (updates.filter (fun p => p.1 ∈ SETTINGS_KEYS)) now := by
  simp only [updateSettings, filter_self_idem]

theorem updateSettings_unknown_noop (cfg : Config) (s : Sheet)
    (updates : List (String × String)) (now : String) (hready : settingsReady cfg s)
    (hout : ∀ p ∈ updates, p.1 ∉ SETTINGS_KEYS) :
    (updateSettings cfg s updates now).state = s ∧
    (updateSettings cfg s updates now).writes = 0 := by
  have hfil : updates.filter (fun p => p.1 ∈ SETTINGS_KEYS) = [] := by
    rw [List.filter_eq_nil_iff]
    intro a ha
    simpa using hout a ha
  have hnoop := ensureSettingsSheet_noop hready
  constructor
  · simp only [updateSettings, hnoop, hfil, updateSettingsLoop, getSettings,
      Out_state, Out_writes]
  · simp only [updateSettings, hnoop, hfil, updateSettingsLoop, getSettings,
      Out_state, Out_writes]

/-- Claim C9: the settings table is restricted to the fixed allow-list of
keys on both sides — every key returned by a read is in the enumerated
set; a write first filters its updates down to allow-listed keys (so the
result is the same as if only those had been submitted); and a write whose
updates are all outside the set writes no row at all: on an
already-provisioned settings tab it issues zero writes and leaves the
spreadsheet unchanged. -/
theorem C9_settings_key_allowlist :
    (∀ cfg s, ∀ q ∈ (getSettings cfg s).val, q.1 ∈ SETTINGS_KEYS) ∧
    (∀ cfg s updates now, updateSettings cfg s updates now
        = updateSettings cfg s (updates.filter (fun p => p.1 ∈ SETTINGS_KEYS)) now) ∧
    (∀ cfg s updates now, settingsReady cfg s →
      (∀ p ∈ updates, p.1 ∉ SETTINGS_KEYS) →
      (updateSettings cfg s updates now).state = s ∧
      (updateSettings cfg s updates now).writes = 0) :=
  ⟨getSettings_keys, updateSettings_filter_eq,
   fun cfg s updates now h1 h2 => updateSettings_unknown_noop cfg s updates now h1 h2⟩

def settingsSheetW : Sheet := ⟨[("SETTINGS", ⟨50, [SETTINGS_HEADERS]⟩)]⟩

/-- Witness for C9 at a concrete provisioned settings tab and a
non-allow-listed update. -/
theorem C9_settings_key_allowlist_witness :
    (∀ q ∈ (getSettings cfgW settingsSheetW).val, q.1 ∈ SETTINGS_KEYS) ∧
    (updateSettings cfgW settingsSheetW [("badkey", "x")] "T").state = settingsSheetW ∧
    (updateSettings cfgW settingsSheetW [("badkey", "x")] "T").writes = 0 :=
  ⟨C9_settings_key_allowlist.1 cfgW settingsSheetW,
   (C9_settings_key_allowlist.2.2 cfgW settingsSheetW [("badkey", "x")] "T"
      ⟨⟨⟨50, [SETTINGS_HEADERS]⟩, by decide, by decide⟩,
       ⟨⟨50, [SETTINGS_HEADERS]⟩, by decide, by decide⟩⟩
      (by decide)).1,
   (C9_settings_key_allowlist.2.2 cfgW settingsSheetW [("badkey", "x")] "T"
      ⟨⟨⟨50, [SETTINGS_HEADERS]⟩, by decide, by decide⟩,
       ⟨⟨50, [SETTINGS_HEADERS]⟩, by decide, by decide⟩⟩
      (by decide)).2⟩

/-! ### Claim C1: vehicle upsert by vehicleId -/

theorem cellAt_trimRowEnd_zero (r : List String)
    (h : (trimRowEnd r).isEmpty = false) : cellAt (trimRowEnd r) 0 = cellAt r 0 := by
  obtain ⟨t, ht⟩ := dropTrailingWhile_prefix (fun c => c == "") r
  have hne : 0 < (trimRowEnd r).length := by
    cases hc : trimRowEnd r with
    | nil => rw [hc] at h; simp at h
    | cons a l => simp
  unfold cellAt
  conv_rhs => rw [ht]
  exact (List.getD_append _ _ _ _ hne).symm

theorem countP_set_of_true {α : Type} (l : List α) (i : Nat) (a : α) (p : α → Bool)
    (h : i < l.length) (hpi : p (l.get ⟨i, h⟩) = true) (hpa : p a = true) :
    (l.set i a).countP p = l.countP p := by
  induction l generalizing i with
  | nil => simp at h
  | cons x t ih =>
    cases i with
    | zero =>
      rw [List.set_cons_zero, List.countP_cons, List.countP_cons, hpa,
        show p x = true from hpi]
    | succ n =>
      rw [List.set_cons_succ, List.countP_cons, List.countP_cons]
      congr 1
      exact ih n (by simpa using h) hpi

theorem encodeVehicleRow_length (v : Vehicle) : (encodeVehicleRow v).length = 12 := by
  simp [encodeVehicleRow]

theorem encodeVehicleRow_not_blank {v : Vehicle} (hvne : v.vehicleId ≠ "") :
    rowIsBlank (encodeVehicleRow v) = false := by
  simp [rowIsBlank, encodeVehicleRow, hvne]

theorem trimmed_encodeVehicleRow_key {v : Vehicle} (hvt : jsTrim v.vehicleId = v.vehicleId)
    (hvne : v.vehicleId ≠ "") :
    jsTrim (cellAt (trimRowEnd (encodeVehicleRow v)) 0) = v.vehicleId := by
  have hempty : (trimRowEnd (encodeVehicleRow v)).isEmpty = false := by
    rw [trimRowEnd_isEmpty_eq]
    exact encodeVehicleRow_not_blank hvne
  rw [cellAt_trimRowEnd_zero _ hempty]
  simp only [encodeVehicleRow, cellAt, List.getD_cons_zero]
  exact hvt

theorem encRow_pred_true (v : Vehicle) (now : String)
    (hvt : jsTrim v.vehicleId = v.vehicleId) (hvne : v.vehicleId ≠ "") :
    (jsTrim (cellAt (trimRowEnd ((encodeVehicleRow { v with updatedAt := now }).take 12)) 0)
      == v.vehicleId) = true := by
  rw [List.take_of_length_le (le_of_eq (encodeVehicleRow_length _))]
  rw [trimmed_encodeVehicleRow_key (v := { v with updatedAt := now }) hvt hvne]
  simp

theorem header_row_not_blank {cells : List (List String)} {n : Nat} {hs : List String}
    (hne : joinPipe hs ≠ "")
    (hj : joinPipe (trimRowEnd ((cells.getD 0 []).take n)) = joinPipe hs) :
    rowIsBlank (cells.headD []) = false := by
  cases hb : rowIsBlank (cells.headD []) with
  | false => rfl
  | true =>
    exfalso
    have hget : cells.getD 0 [] = cells.headD [] := by cases cells <;> rfl
    have hb2 : (cells.headD []).all (fun c => c == "") = true := hb
    have hall : ∀ c ∈ (cells.getD 0 []).take n, c = "" := by
      intro c hc
      have hc2 : c ∈ cells.headD [] := by
        rw [← hget]
        exact List.mem_of_mem_take hc
      simpa using List.all_eq_true.1 hb2 c hc2
    have hnil : trimRowEnd ((cells.getD 0 []).take n) = [] :=
      (trimRowEnd_eq_nil_iff _).2 hall
    rw [hnil] at hj
    exact hne (hj.symm.trans (show joinPipe [] = "" from rfl))

theorem readRange_one_appendRowAt_zero (rc rc' : Nat) (cells : List (List String))
    (nCols : Nat) (row : List String)
    (hhead : rowIsBlank (cells.headD []) = false)
    (hfit : ∀ r ∈ cells.drop 1, r.length ≤ nCols)
    (hrow : (trimRowEnd (row.take nCols)).isEmpty = false) :
    readRange ⟨rc', appendRowAt cells 0 row⟩ 1 none nCols
      = readRange ⟨rc, cells⟩ 1 none nCols ++ [trimRowEnd (row.take nCols)] := by
  obtain ⟨c, rest, rfl⟩ : ∃ c rest, cells = c :: rest := by
    cases cells with
    | nil => simp [rowIsBlank] at hhead
    | cons c rest => exact ⟨c, rest, rfl⟩
  have happ : appendRowAt (c :: rest) 0 row
      = c :: (dropTrailingWhile rowIsBlank rest ++ [row]) := by
    unfold appendRowAt
    simp only [List.take_zero, List.drop_zero]
    rw [show padRows ([] : List (List String)) 0 = [] from rfl,
      dropTrailingWhile_cons_not _ _ (by simpa using hhead)]
    simp
  rw [happ, readRange_none_eq, readRange_none_eq]
  simp only [List.drop_succ_cons, List.drop_zero]
  rw [List.map_append]
  unfold dropBlankRowsEnd
  simp only [List.map_cons, List.map_nil]
  rw [dropTrailingWhile_append_last _ _ hrow]
  congr 1
  rw [dropTrailingWhile_map]
  rw [dropTrailingWhile_congr _ (fun r => rowIsBlank r) _
    (fun r hr => trimRow_take_isEmpty (hfit r (by simpa using hr)))]

theorem vehRowsOf_eq {s : Sheet} {dealerId : String} {tW : Tab}
    (htW : findTab s (safeDealerTabName (normalizeDealerId dealerId)) = some tW) :
    vehRowsOf s dealerId = readRange tW 1 none 12 := by
  unfold vehRowsOf
  rw [htW]
  rfl

theorem dealerUpsertVehicle_val (cfg : Config) (s : Sheet) (dealerId : String)
    (v : Vehicle) (now : String) :
    (dealerUpsertVehicle cfg s dealerId v now).val = { v with updatedAt := now } := rfl

theorem dealerUpsertVehicle_state_found (cfg : Config) (s : Sheet) (dealerId : String)
    (v : Vehicle) (now : String) {tW : Tab} {i : Nat}
    (hready : dealerTabReady cfg s (normalizeDealerId dealerId))
    (htW : findTab s (safeDealerTabName (normalizeDealerId dealerId)) = some tW)
    (hopt : (readRange tW 1 none 12).findIdx?
      (fun r => jsTrim (cellAt r 0) == v.vehicleId) = some i) :
    (dealerUpsertVehicle cfg s dealerId v now).state
      = setTab s (safeDealerTabName (normalizeDealerId dealerId))
          (Tab.mk tW.rowCount (setRowCells tW.cells (i + 1)
            (encodeVehicleRow { v with updatedAt := now }))) := by
  have hnoop := ensureDealerTabLayout_noop hready
  unfold dealerUpsertVehicle
  simp only [hnoop, Out_state, htW, Option.getD_some, hopt]

theorem dealerUpsertVehicle_state_notfound (cfg : Config) (s : Sheet) (dealerId : String)
    (v : Vehicle) (now : String) {tW : Tab}
    (hready : dealerTabReady cfg s (normalizeDealerId dealerId))
    (htW : findTab s (safeDealerTabName (normalizeDealerId dealerId)) = some tW)
    (hopt : (readRange tW 1 none 12).findIdx?
      (fun r => jsTrim (cellAt r 0) == v.vehicleId) = none) :
    (dealerUpsertVehicle cfg s dealerId v now).state
      = setTab s (safeDealerTabName (normalizeDealerId dealerId))
          (Tab.mk tW.rowCount (appendRowAt tW.cells 0
            (encodeVehicleRow { v with updatedAt := now }))) := by
  have hnoop := ensureDealerTabLayout_noop hready
  unfold dealerUpsertVehicle
  simp only [hnoop, Out_state, htW, Option.getD_some, hopt]

theorem upsertVehicle_known_count (cfg : Config) (s : Sheet) (dealerId : String)
    (v : Vehicle) (now : String)
    (hready : dealerTabReady cfg s (normalizeDealerId dealerId))
    (hvt : jsTrim v.vehicleId = v.vehicleId) (hvne : v.vehicleId ≠ "")
    (hcount : countVehId (vehRowsOf s dealerId) v.vehicleId = 1) :
    countVehId (vehRowsOf (dealerUpsertVehicle cfg s dealerId v now).state dealerId)
      v.vehicleId = 1 := by
  obtain ⟨⟨tW, htW, hge⟩, hok1, hok2⟩ := id hready
  obtain ⟨rcW, cellsW⟩ := tW
  have hrowsOld := vehRowsOf_eq htW
  have hpos : 0 < (vehRowsOf s dealerId).countP
      (fun r => jsTrim (cellAt r 0) == v.vehicleId) := by
    unfold countVehId at hcount
    omega
  rcases hopt : (readRange ⟨rcW, cellsW⟩ 1 none 12).findIdx?
      (fun r => jsTrim (cellAt r 0) == v.vehicleId) with _ | i
  · exfalso
    rw [List.findIdx?_eq_none_iff] at hopt
    obtain ⟨a, ha, hpa⟩ := List.countP_pos_iff.1 hpos
    rw [hrowsOld] at ha
    have hfa := hopt a ha
    rw [hfa] at hpa
    exact absurd hpa (by decide)
  · obtain ⟨hi, hpi, -⟩ := List.findIdx?_eq_some_iff_getElem.1 hopt
    have hstate := dealerUpsertVehicle_state_found cfg s dealerId v now hready htW hopt
    have hrow : (trimRowEnd ((encodeVehicleRow { v with updatedAt := now }).take
        12)).isEmpty = false := by
      rw [trimRow_take_isEmpty (le_of_eq (encodeVehicleRow_length _))]
      exact encodeVehicleRow_not_blank hvne
    have hrowsNew : vehRowsOf (dealerUpsertVehicle cfg s dealerId v now).state dealerId
        = (readRange ⟨rcW, cellsW⟩ 1 none 12).set i
            (trimRowEnd ((encodeVehicleRow { v with updatedAt := now }).take 12)) := by
      rw [hstate]
      unfold vehRowsOf
      rw [findTab_setTab_self _ _ _ (by rw [htW]; rfl), Option.getD_some]
      rw [show i + 1 = 1 + i from by omega]
      exact readRange_setRowCells rcW rcW cellsW 1 12 i _ hi hrow
    have hpi2 : (fun r => jsTrim (cellAt r 0) == v.vehicleId)
        ((readRange ⟨rcW, cellsW⟩ 1 none 12).get ⟨i, hi⟩) = true := hpi
    unfold countVehId
    rw [hrowsNew, countP_set_of_true (readRange ⟨rcW, cellsW⟩ 1 none 12) i
      (trimRowEnd ((encodeVehicleRow { v with updatedAt := now }).take 12))
      (fun r => jsTrim (cellAt r 0) == v.vehicleId) hi hpi2
      (encRow_pred_true v now hvt hvne)]
    unfold countVehId at hcount
    rw [hrowsOld] at hcount
    exact hcount

theorem upsertVehicle_unknown_appends (cfg : Config) (s : Sheet) (dealerId : String)
    (v : Vehicle) (now : String)
    (hready : dealerTabReady cfg s (normalizeDealerId dealerId))
    (hvt : jsTrim v.vehicleId = v.vehicleId) (hvne : v.vehicleId ≠ "")
    (hfit : ∀ r ∈ (tabCells s (safeDealerTabName (normalizeDealerId dealerId))).drop 1,
      r.length ≤ 12)
    (hcount : countVehId (vehRowsOf s dealerId) v.vehicleId = 0) :
    vehRowsOf (dealerUpsertVehicle cfg s dealerId v now).state dealerId
      = vehRowsOf s dealerId
        ++ [trimRowEnd (encodeVehicleRow { v with updatedAt := now })] ∧
    countVehId (vehRowsOf (dealerUpsertVehicle cfg s dealerId v now).state dealerId)
      v.vehicleId = 1 := by
  obtain ⟨⟨tW, htW, hge⟩, hok1, hok2⟩ := id hready
  obtain ⟨rcW, cellsW⟩ := tW
  have hrowsOld := vehRowsOf_eq htW
  have hopt : (readRange ⟨rcW, cellsW⟩ 1 none 12).findIdx?
      (fun r => jsTrim (cellAt r 0) == v.vehicleId) = none := by
    rw [List.findIdx?_eq_none_iff]
    intro x hx
    unfold countVehId at hcount
    rw [hrowsOld] at hcount
    simpa using List.countP_eq_zero.1 hcount x hx
  have hstate := dealerUpsertVehicle_state_notfound cfg s dealerId v now hready htW hopt
  have hhead : rowIsBlank (cellsW.headD []) = false := by
    obtain ⟨t2, ht2, hj⟩ := hok1
    rw [htW] at ht2
    injection ht2 with ht2
    subst ht2
    rw [readRow_eq] at hj
    exact header_row_not_blank (by decide) hj
  have hfit2 : ∀ r ∈ cellsW.drop 1, r.length ≤ 12 := by
    unfold tabCells at hfit
    rw [htW] at hfit
    exact hfit
  have hrow : (trimRowEnd ((encodeVehicleRow { v with updatedAt := now }).take
      12)).isEmpty = false := by
    rw [trimRow_take_isEmpty (le_of_eq (encodeVehicleRow_length _))]
    exact encodeVehicleRow_not_blank hvne
  have hrowsNew : vehRowsOf (dealerUpsertVehicle cfg s dealerId v now).state dealerId
      = readRange ⟨rcW, cellsW⟩ 1 none 12
        ++ [trimRowEnd ((encodeVehicleRow { v with updatedAt := now }).take 12)] := by
    rw [hstate]
    unfold vehRowsOf
    rw [findTab_setTab_self _ _ _ (by rw [htW]; rfl), Option.getD_some]
    exact readRange_one_appendRowAt_zero rcW rcW cellsW 12 _ hhead hfit2 hrow
  refine ⟨?_, ?_⟩
  · rw [hrowsNew, ← hrowsOld, List.take_of_length_le (le_of_eq (encodeVehicleRow_length _))]
  · unfold countVehId
    rw [hrowsNew, List.countP_append]
    unfold countVehId at hcount
    rw [hrowsOld] at hcount
    rw [hcount]
    have hpa2 := encRow_pred_true v now hvt hvne
    simp [hpa2]

theorem bytesHexLower_toUpper_mem {bs : List Nat} (h : ∀ b ∈ bs, b < 256) :
    ∀ c ∈ bytesHexLower bs, isUpperHexChar c.toUpper = true := by
  intro c hc
  simp only [bytesHexLower, List.mem_flatten, List.mem_map] at hc
  obtain ⟨l, ⟨b, hb, rfl⟩, hcl⟩ := hc
  have hb256 : b < 256 := h b hb
  simp only [byteHexLower, List.mem_cons, List.not_mem_nil, or_false] at hcl
  rcases hcl with rfl | rfl
  · exact hexCharLower_toUpper_isUpper (by omega)
  · exact hexCharLower_toUpper_isUpper (by omega)

theorem matchesVehicleIdFormat_makeVehicleId {bs : List Nat} (hlen : bs.length = 3)
    (hmem : ∀ b ∈ bs, b < 256) :
    matchesVehicleIdFormat (makeVehicleId bs) = true := by
  unfold matchesVehicleIdFormat makeVehicleId
  have hdata : ("VEH-" ++ jsUpper ⟨bytesHexLower bs⟩).data
      = "VEH-".data ++ (bytesHexLower bs).map Char.toUpper := by
    rw [String.data_append]
    rfl
  rw [hdata]
  have hl : ((bytesHexLower bs).map Char.toUpper).length = 6 := by
    rw [List.length_map, bytesHexLower_length, hlen]
  simp only [Bool.and_eq_true]
  refine ⟨⟨?_, ?_⟩, ?_⟩
  · rw [List.length_append, hl, show ("VEH-".data).length = 4 from rfl]
    decide
  · rw [List.take_left' (show ("VEH-".data).length = 4 from rfl)]
    decide
  · rw [List.drop_left' (show ("VEH-".data).length = 4 from rfl)]
    rw [List.all_eq_true]
    intro c hc
    obtain ⟨c0, hc0, rfl⟩ := List.mem_map.1 hc
    exact bytesHexLower_toUpper_mem hmem c0 hc0

theorem postVehicle_generated_id (cfg : Config) (s : Sheet) (dealerId : String)
    (body : VehicleBody) (idBytes : List Nat) (now : String) (veh : Vehicle)
    (hvid : jsTrim body.vehicleId = "")
    (hlen : idBytes.length = 3) (hmem : ∀ b ∈ idBytes, b < 256)
    (hval : (dealerPostVehicle cfg s dealerId body idBytes now).val = some veh) :
    veh.vehicleId = makeVehicleId idBytes ∧
    matchesVehicleIdFormat veh.vehicleId = true := by
  unfold dealerPostVehicle at hval
  simp only [apply_ite Out.val, Out_val] at hval
  by_cases hbad : jsTrim body.make = "" ∨ jsTrim body.model = ""
  · rw [if_pos hbad] at hval
    simp at hval
  · rw [if_neg hbad] at hval
    rw [dealerUpsertVehicle_val] at hval
    injection hval with hv
    have hvv : veh.vehicleId = makeVehicleId idBytes := by
      rw [← hv]
      simp [hvid]
    exact ⟨hvv, by rw [hvv]; exact matchesVehicleIdFormat_makeVehicleId hlen hmem⟩

/-- Claim C1: on a provisioned dealer tab, upserting a vehicle whose
(non-empty, trimmed) vehicleId occurs in exactly one read row rewrites
that row in place, so exactly one row holds the id afterwards; upserting a
vehicle whose id occurs in no row appends exactly one new row (after which
exactly one row holds the id); and the POST handler, when the request
carries no vehicleId, generates a fresh id of the form
`VEH-` + six uppercase hex digits from its three random bytes. -/
theorem C1_vehicle_upsert_contract :
    (∀ cfg s dealerId v now, dealerTabReady cfg s (normalizeDealerId dealerId) →
      jsTrim v.vehicleId = v.vehicleId → v.vehicleId ≠ "" →
      countVehId (vehRowsOf s dealerId) v.vehicleId = 1 →
      countVehId (vehRowsOf (dealerUpsertVehicle cfg s dealerId v now).state dealerId)
        v.vehicleId = 1) ∧
    (∀ cfg s dealerId v now, dealerTabReady cfg s (normalizeDealerId dealerId) →
      jsTrim v.vehicleId = v.vehicleId → v.vehicleId ≠ "" →
      (∀ r ∈ (tabCells s (safeDealerTabName (normalizeDealerId dealerId))).drop 1,
        r.length ≤ 12) →
      countVehId (vehRowsOf s dealerId) v.vehicleId = 0 →
      vehRowsOf (dealerUpsertVehicle cfg s dealerId v now).state dealerId
        = vehRowsOf s dealerId
          ++ [trimRowEnd (encodeVehicleRow { v with updatedAt := now })] ∧
      countVehId (vehRowsOf (dealerUpsertVehicle cfg s dealerId v now).state dealerId)
        v.vehicleId = 1) ∧
    (∀ cfg s dealerId body idBytes now veh, jsTrim body.vehicleId = "" →
      idBytes.length = 3 → (∀ b ∈ idBytes, b < 256) →
      (dealerPostVehicle cfg s dealerId body idBytes now).val = some veh →
      veh.vehicleId = makeVehicleId idBytes ∧
      matchesVehicleIdFormat veh.vehicleId = true) :=
  ⟨upsertVehicle_known_count, upsertVehicle_unknown_appends, postVehicle_generated_id⟩

def vehicleC1 : Vehicle :=
  ⟨"VEH-0A0B0C", "T", "Make", "Model", none, .num 0, "available", "", "", "", [], "t0"⟩

def dealerTabC1 : Tab := ⟨10, [VEHICLE_HEADERS, encodeVehicleRow vehicleC1, LEAD_HEADERS]⟩

def sheetC1 : Sheet := ⟨[("AB123", dealerTabC1)]⟩

def bodyC1 : VehicleBody := ⟨"", "T", "Make", "Model", none, none, "", "", "", "", []⟩

def vehPostC1 : Vehicle :=
  ⟨"VEH-0102FA", "T", "Make", "Model", none, .num 0, "available", "", "", "", [], "T"⟩

/-- Witness for C1 at a concrete provisioned dealer tab: an in-place
update keeps the count at one, an unknown id appends, a blank posted id
gets the generated format. -/
theorem C1_vehicle_upsert_contract_witness :
    countVehId (vehRowsOf (dealerUpsertVehicle cfgW sheetC1 "AB123" vehicleC1 "T2").state
      "AB123") "VEH-0A0B0C" = 1 ∧
    (vehRowsOf (dealerUpsertVehicle cfgW sheetW "AB123" vehicleC1 "T2").state "AB123"
      = vehRowsOf sheetW "AB123"
        ++ [trimRowEnd (encodeVehicleRow { vehicleC1 with updatedAt := "T2" })] ∧
     countVehId (vehRowsOf (dealerUpsertVehicle cfgW sheetW "AB123" vehicleC1 "T2").state
       "AB123") "VEH-0A0B0C" = 1) ∧
    (vehPostC1.vehicleId = makeVehicleId [1, 2, 250] ∧
     matchesVehicleIdFormat vehPostC1.vehicleId = true) :=
  ⟨C1_vehicle_upsert_contract.1 cfgW sheetC1 "AB123" vehicleC1 "T2"
      ⟨⟨dealerTabC1, by decide, by decide⟩, ⟨dealerTabC1, by decide, by decide⟩,
       ⟨dealerTabC1, by decide, by decide⟩⟩ (by decide) (by decide) (by decide),
   C1_vehicle_upsert_contract.2.1 cfgW sheetW "AB123" vehicleC1 "T2"
      ⟨⟨dealerTabW, by decide, by decide⟩, ⟨dealerTabW, by decide, by decide⟩,
       ⟨dealerTabW, by decide, by decide⟩⟩ (by decide) (by decide) (by decide) (by decide),
   C1_vehicle_upsert_contract.2.2 cfgW sheetW "AB123" bodyC1 [1, 2, 250] "T" vehPostC1
      (by decide) (by decide) (by decide) (by decide)⟩

/-! ### Claim C7: lead submission and status update -/

theorem setCellAt_eq_setRowCells (cells : List (List String)) (i j : Nat) (v : String) :
    setCellAt cells i j v
      = setRowCells cells i ((cells.getD i []
          ++ List.replicate (j + 1 - (cells.getD i []).length) "").set j v) := rfl

theorem cellAt_setCellAt_row_ne (cells : List (List String)) (i j : Nat) (v : String)
    (j' : Nat) (h : j' ≠ j) :
    cellAt ((setCellAt cells i j v).getD i []) j' = cellAt (cells.getD i []) j' := by
  rw [setCellAt_eq_setRowCells, getD_setRowCells_self]
  generalize cells.getD i [] = row
  unfold cellAt
  rw [List.getD_eq_getElem?_getD, List.getD_eq_getElem?_getD,
    List.getElem?_set_ne (Ne.symm h), List.getElem?_append]
  by_cases hlt : j' < row.length
  · rw [if_pos hlt]
  · rw [if_neg hlt, List.getElem?_replicate, List.getElem?_eq_none (le_of_not_lt hlt)]
    by_cases h3 : j' - row.length < j + 1 - row.length <;> simp [h3]

theorem dealerListLeads_state_ready (cfg : Config) (s : Sheet) (dealerId : String)
    (hfix : normalizeDealerId dealerId = dealerId)
    (hready : dealerTabReady cfg s dealerId) :
    (dealerListLeads cfg s dealerId).state = s ∧
    (dealerListLeads cfg s dealerId).writes = 0 := by
  have hnoop := ensureDealerTabLayout_noop hready
  refine ⟨?_, ?_⟩ <;>
    · unfold dealerListLeads
      rw [hfix]
      simp only [hnoop, Out_state, Out_writes]

theorem encodeLeadRow_length (l : Lead) : (encodeLeadRow l).length = 12 := by
  simp [encodeLeadRow]

theorem encodeLeadRow_not_blank {l : Lead} (h : l.createdAt ≠ "") :
    rowIsBlank (encodeLeadRow l) = false := by
  simp [rowIsBlank, encodeLeadRow, h]

theorem matchesLeadIdFormat_makeLeadId {bs : List Nat} (hlen : bs.length = 6)
    (hmem : ∀ b ∈ bs, b < 256) : matchesLeadIdFormat (makeLeadId bs) = true := by
  unfold matchesLeadIdFormat makeLeadId
  have hdata : ("lead_" ++ (⟨bytesHexLower bs⟩ : String)).data
      = "lead_".data ++ bytesHexLower bs := by
    rw [String.data_append]
  rw [hdata]
  have hl : (bytesHexLower bs).length = 12 := by rw [bytesHexLower_length, hlen]
  simp only [Bool.and_eq_true]
  refine ⟨⟨?_, ?_⟩, ?_⟩
  · rw [List.length_append, hl, show ("lead_".data).length = 5 from rfl]
    decide
  · rw [List.take_left' (show ("lead_".data).length = 5 from rfl)]
    decide
  · rw [List.drop_left' (show ("lead_".data).length = 5 from rfl)]
    rw [List.all_eq_true]
    intro c hc
    exact bytesHexLower_mem hmem c hc

theorem dealerAppendLead_state (cfg : Config) (s : Sheet) (dealerId : String)
    (lead : Lead) (randBytes : List Nat) (now : String) {tW : Tab}
    (hfix : normalizeDealerId dealerId = dealerId)
    (hready : dealerTabReady cfg s dealerId)
    (htW : findTab s (safeDealerTabName dealerId) = some tW) :
    (dealerAppendLead cfg s dealerId lead randBytes now).state
      = setTab s (safeDealerTabName dealerId)
          (Tab.mk tW.rowCount (appendRowAt tW.cells cfg.leadsStartRow
            (encodeLeadRow { lead with
              leadId := jsOr lead.leadId (makeLeadId randBytes), createdAt := now }))) := by
  have hnoop := ensureDealerTabLayout_noop hready
  unfold dealerAppendLead
  simp only [hfix, hnoop, Out_state, htW, Option.getD_some]

theorem dealerAppendLead_val (cfg : Config) (s : Sheet) (dealerId : String) (lead : Lead)
    (randBytes : List Nat) (now : String) :
    (dealerAppendLead cfg s dealerId lead randBytes now).val
      = { lead with
          leadId := jsOr lead.leadId (makeLeadId randBytes), createdAt := now,
          status := jsOr lead.status "new" } := rfl

theorem appendLead_spec (cfg : Config) (s : Sheet) (dealerId : String) (lead : Lead)
    (randBytes : List Nat) (now : String)
    (hfix : normalizeDealerId dealerId = dealerId)
    (hready : dealerTabReady cfg s dealerId)
    (hfit : ∀ r ∈ (tabCells s (safeDealerTabName dealerId)).drop cfg.leadsStartRow,
      r.length ≤ 12)
    (hlid : lead.leadId = "") (hstatus : lead.status = "new") (hnow : now ≠ "")
    (hlen : randBytes.length = 6) (hmem : ∀ b ∈ randBytes, b < 256) :
    leadRowsOf cfg (dealerAppendLead cfg s dealerId lead randBytes now).state dealerId
      = leadRowsOf cfg s dealerId
        ++ [trimRowEnd (encodeLeadRow { lead with
            leadId := makeLeadId randBytes, createdAt := now })] ∧
    (dealerAppendLead cfg s dealerId lead randBytes now).val.leadId
      = makeLeadId randBytes ∧
    matchesLeadIdFormat (makeLeadId randBytes) = true ∧
    (dealerAppendLead cfg s dealerId lead randBytes now).val.status = "new" := by
  obtain ⟨⟨tW, htW, hge⟩, hok1, hok2⟩ := id hready
  obtain ⟨rcW, cellsW⟩ := tW
  have hstate := dealerAppendLead_state cfg s dealerId lead randBytes now hfix hready htW
  rw [hlid] at hstate
  simp only [jsOr_empty] at hstate
  have hfit2 : ∀ r ∈ cellsW.drop cfg.leadsStartRow, r.length ≤ 12 := by
    unfold tabCells at hfit
    rw [htW] at hfit
    exact hfit
  have hrow : (trimRowEnd ((encodeLeadRow { lead with
      leadId := makeLeadId randBytes, createdAt := now }).take 12)).isEmpty = false := by
    rw [trimRow_take_isEmpty (le_of_eq (encodeLeadRow_length _))]
    exact encodeLeadRow_not_blank hnow
  refine ⟨?_, ?_, matchesLeadIdFormat_makeLeadId hlen hmem, ?_⟩
  · rw [hstate]
    unfold leadRowsOf
    rw [hfix, findTab_setTab_self _ _ _ (by rw [htW]; rfl), htW]
    simp only [Option.getD_some]
    rw [readRange_appendRowAt rcW rcW cellsW cfg.leadsStartRow 12
      (encodeLeadRow { lead with leadId := makeLeadId randBytes, createdAt := now })
      hfit2 hrow]
    rw [List.take_of_length_le (le_of_eq (encodeLeadRow_length _))]
  · rw [dealerAppendLead_val]
    simp [hlid]
  · rw [dealerAppendLead_val]
    simp [hstatus, jsOr]

theorem dealerUpdateLeadStatus_found (cfg : Config) (s : Sheet)
    (dealerId li status : String) {lead : Lead} {tW : Tab}
    (hfix : normalizeDealerId dealerId = dealerId)
    (hready : dealerTabReady cfg s dealerId)
    (htW : findTab s (safeDealerTabName dealerId) = some tW)
    (hfound : (dealerListLeads cfg s dealerId).val.find? (fun l => l.leadId == li)
      = some lead) :
    dealerUpdateLeadStatus cfg s dealerId li status
      = ⟨setTab s (safeDealerTabName dealerId)
           (Tab.mk tW.rowCount (setCellAt tW.cells (lead.rowNum - 1) 11 status)),
         1, some { lead with status := status }⟩ := by
  obtain ⟨h1, h2⟩ := dealerListLeads_state_ready cfg s dealerId hfix hready
  unfold dealerUpdateLeadStatus
  simp only [hfix, hfound, h1, h2, htW, Option.getD_some, Nat.zero_add]

theorem updateLeadStatus_spec (cfg : Config) (s : Sheet) (dealerId li status : String)
    (lead : Lead)
    (hfix : normalizeDealerId dealerId = dealerId)
    (hready : dealerTabReady cfg s dealerId)
    (hfound : (dealerListLeads cfg s dealerId).val.find? (fun l => l.leadId == li)
      = some lead) :
    (dealerUpdateLeadStatus cfg s dealerId li status).val
      = some { lead with status := status } ∧
    (dealerUpdateLeadStatus cfg s dealerId li status).writes = 1 ∧
    tabCells (dealerUpdateLeadStatus cfg s dealerId li status).state
        (safeDealerTabName dealerId)
      = setCellAt (tabCells s (safeDealerTabName dealerId)) (lead.rowNum - 1) 11 status ∧
    (∀ i, i ≠ lead.rowNum - 1 →
      (tabCells (dealerUpdateLeadStatus cfg s dealerId li status).state
          (safeDealerTabName dealerId)).getD i []
        = (tabCells s (safeDealerTabName dealerId)).getD i []) ∧
    (∀ j, j ≠ 11 →
      cellAt ((tabCells (dealerUpdateLeadStatus cfg s dealerId li status).state
          (safeDealerTabName dealerId)).getD (lead.rowNum - 1) []) j
        = cellAt ((tabCells s (safeDealerTabName dealerId)).getD (lead.rowNum - 1) []) j) := by
  obtain ⟨⟨tW, htW, hge⟩, hok1, hok2⟩ := id hready
  have heq := dealerUpdateLeadStatus_found cfg s dealerId li status hfix hready htW hfound
  have htc : tabCells s (safeDealerTabName dealerId) = tW.cells := by
    unfold tabCells
    rw [htW]
    rfl
  have htc2 : tabCells (dealerUpdateLeadStatus cfg s dealerId li status).state
      (safeDealerTabName dealerId)
      = setCellAt tW.cells (lead.rowNum - 1) 11 status := by
    rw [heq]
    unfold tabCells
    simp only [Out_state]
    rw [findTab_setTab_self _ _ _ (by rw [htW]; rfl), Option.getD_some]
  refine ⟨?_, ?_, ?_, ?_, ?_⟩
  · rw [heq]
  · rw [heq]
  · rw [htc2, htc]
  · intro i hi
    rw [htc2, htc, setCellAt_eq_setRowCells]
    exact getD_setRowCells_ne _ _ _ _ (Ne.symm hi)
  · intro j hj
    rw [htc2, htc]
    exact cellAt_setCellAt_row_ne tW.cells (lead.rowNum - 1) 11 status j hj

/-- Claim C7: on a provisioned dealer tab, appending a lead with no
supplied leadId adds exactly one row at the end of the lead region
(read from the configured lead offset), the generated id is `lead_` +
twelve lowercase hex digits, and the stored status is `new`; a subsequent
status update for a lead found by that id rewrites only the single status
cell of that lead's row — value, row count and every other cell (other
rows, and other columns of the same row) are unchanged — and returns the
same lead with only the status replaced. -/
theorem C7_lead_append_then_update :
    (∀ cfg s dealerId lead randBytes now,
      normalizeDealerId dealerId = dealerId →
      dealerTabReady cfg s dealerId →
      (∀ r ∈ (tabCells s (safeDealerTabName dealerId)).drop cfg.leadsStartRow,
        r.length ≤ 12) →
      lead.leadId = "" → lead.status = "new" → now ≠ "" →
      randBytes.length = 6 → (∀ b ∈ randBytes, b < 256) →
      leadRowsOf cfg (dealerAppendLead cfg s dealerId lead randBytes now).state dealerId
        = leadRowsOf cfg s dealerId
          ++ [trimRowEnd (encodeLeadRow { lead with
              leadId := makeLeadId randBytes, createdAt := now })] ∧
      (dealerAppendLead cfg s dealerId lead randBytes now).val.leadId
        = makeLeadId randBytes ∧
      matchesLeadIdFormat (makeLeadId randBytes) = true ∧
      (dealerAppendLead cfg s dealerId lead randBytes now).val.status = "new") ∧
    (∀ cfg s dealerId li status lead,
      normalizeDealerId dealerId = dealerId →
      dealerTabReady cfg s dealerId →
      (dealerListLeads cfg s dealerId).val.find? (fun l => l.leadId == li)
        = some lead →
      (dealerUpdateLeadStatus cfg s dealerId li status).val
        = some { lead with status := status } ∧
      (dealerUpdateLeadStatus cfg s dealerId li status).writes = 1 ∧
      tabCells (dealerUpdateLeadStatus cfg s dealerId li status).state
          (safeDealerTabName dealerId)
        = setCellAt (tabCells s (safeDealerTabName dealerId)) (lead.rowNum - 1) 11
            status ∧
      (∀ i, i ≠ lead.rowNum - 1 →
        (tabCells (dealerUpdateLeadStatus cfg s dealerId li status).state
            (safeDealerTabName dealerId)).getD i []
          = (tabCells s (safeDealerTabName dealerId)).getD i []) ∧
      (∀ j, j ≠ 11 →
        cellAt ((tabCells (dealerUpdateLeadStatus cfg s dealerId li status).state
            (safeDealerTabName dealerId)).getD (lead.rowNum - 1) []) j
          = cellAt ((tabCells s (safeDealerTabName dealerId)).getD
              (lead.rowNum - 1) []) j)) :=
  ⟨appendLead_spec, updateLeadStatus_spec⟩

def leadBaseC7 : Lead :=
  ⟨"", "", "VEH-ABCDEF", "video", "Jane", "8765551234", "", "", "", "", "storefront",
   "new", 0⟩

def leadStoredC7 : Lead :=
  ⟨"t0", "lead_0102030405fa", "VEH-ABCDEF", "video", "Jane", "8765551234", "", "", "",
   "", "storefront", "new", 4⟩

def dealerTabC7 : Tab :=
  ⟨10, [VEHICLE_HEADERS, [], LEAD_HEADERS, encodeLeadRow leadStoredC7]⟩

def sheetC7 : Sheet := ⟨[("AB123", dealerTabC7)]⟩

/-- Witness for C7 at a concrete provisioned dealer tab. -/
theorem C7_lead_append_then_update_witness :
    (leadRowsOf cfgW
        (dealerAppendLead cfgW sheetW "AB123" leadBaseC7 [1, 2, 3, 4, 5, 250] "T").state
        "AB123"
      = leadRowsOf cfgW sheetW "AB123"
        ++ [trimRowEnd (encodeLeadRow { leadBaseC7 with
            leadId := makeLeadId [1, 2, 3, 4, 5, 250], createdAt := "T" })] ∧
     (dealerAppendLead cfgW sheetW "AB123" leadBaseC7 [1, 2, 3, 4, 5, 250] "T").val.leadId
       = makeLeadId [1, 2, 3, 4, 5, 250] ∧
     matchesLeadIdFormat (makeLeadId [1, 2, 3, 4, 5, 250]) = true ∧
     (dealerAppendLead cfgW sheetW "AB123" leadBaseC7
       [1, 2, 3, 4, 5, 250] "T").val.status = "new") ∧
    ((dealerUpdateLeadStatus cfgW sheetC7 "AB123" "lead_0102030405fa" "booked").val
      = some { leadStoredC7 with status := "booked" } ∧
     (dealerUpdateLeadStatus cfgW sheetC7 "AB123" "lead_0102030405fa" "booked").writes
      = 1) :=
  ⟨C7_lead_append_then_update.1 cfgW sheetW "AB123" leadBaseC7 [1, 2, 3, 4, 5, 250] "T"
      (by decide)
      ⟨⟨dealerTabW, by decide, by decide⟩, ⟨dealerTabW, by decide, by decide⟩,
       ⟨dealerTabW, by decide, by decide⟩⟩
      (by decide) (by decide) (by decide) (by decide) (by decide) (by decide),
   ⟨(C7_lead_append_then_update.2 cfgW sheetC7 "AB123" "lead_0102030405fa" "booked"
        leadStoredC7 (by decide)
        ⟨⟨dealerTabC7, by decide, by decide⟩, ⟨dealerTabC7, by decide, by decide⟩,
         ⟨dealerTabC7, by decide, by decide⟩⟩
        (by decide)).1,
    (C7_lead_append_then_update.2 cfgW sheetC7 "AB123" "lead_0102030405fa" "booked"
        leadStoredC7 (by decide)
        ⟨⟨dealerTabC7, by decide, by decide⟩, ⟨dealerTabC7, by decide, by decide⟩,
         ⟨dealerTabC7, by decide, by decide⟩⟩
        (by decide)).2.1⟩⟩

/-! ### Claim C3: dealer create scenario -/

theorem gen6_ne_empty (r : Nat) : gen6 r ≠ "" := natDecString_ne_empty _

/-- The dealer record built by the create handler when no dealer with the
id exists and no passcode was supplied (dealerId `AB123`, blank status). -/
def dealerRecordNew (pbkdf2 : String → String → String) (body : DealerBody)
    (rand : Nat) (salt now : String) : Dealer :=
  { dealerId := "AB123", name := body.name, status := "active",
    passcodeHash := hashPasscode pbkdf2 (gen6 rand) salt, passcode := gen6 rand,
    whatsapp := digitsOnly body.whatsapp, logoUrl := body.logoUrl,
    createdAt := now, updatedAt := now }

theorem adminListDealers_ready (cfg : Config) (s : Sheet) (hready : adminReady cfg s) :
    adminListDealers cfg s = ⟨s, 0, (adminRowsOf cfg s).map decodeDealerRow⟩ := by
  unfold adminListDealers adminRowsOf
  simp only [ensureAdminSheet_noop hready, Out_state, Out_writes]

theorem adminGetDealer_ready (cfg : Config) (s : Sheet) (dealerId : String)
    (hready : adminReady cfg s) :
    adminGetDealer cfg s dealerId
      = ⟨s, 0, ((adminRowsOf cfg s).map decodeDealerRow).find?
          (fun d => normalizeDealerId d.dealerId == normalizeDealerId dealerId)⟩ := by
  unfold adminGetDealer
  simp only [adminListDealers_ready cfg s hready, Out_state, Out_writes, Out_val]

theorem adminCreateDealer_new_val (pbkdf2 : String → String → String) (cfg : Config)
    (s : Sheet) (body : DealerBody) (rand : Nat) (salt now : String)
    (hid : body.dealerId = "AB123") (hname : body.name ≠ "")
    (hpass : jsTrim body.passcode = "") (hstatus : body.status = "")
    (hready : adminReady cfg s)
    (hnod : ∀ d ∈ (adminRowsOf cfg s).map decodeDealerRow,
      normalizeDealerId d.dealerId ≠ "AB123") :
    (adminCreateDealer pbkdf2 cfg s body rand salt now).val
      = some ⟨dealerRecordNew pbkdf2 body rand salt now, gen6 rand⟩ := by
  have hnorm : normalizeDealerId "AB123" = "AB123" := by decide
  have hfindnone : ((adminRowsOf cfg s).map decodeDealerRow).find?
      (fun d => normalizeDealerId d.dealerId == "AB123") = none := by
    rw [List.find?_eq_none]
    intro d hd
    simpa using hnod d hd
  have hg6 : gen6 rand ≠ "" := gen6_ne_empty rand
  unfold adminCreateDealer
  rw [hid]
  rw [if_neg (fun hor => hor.elim (fun hc => absurd hc (by decide)) (fun hc => hname hc))]
  rw [if_neg (by decide)]
  simp only [hnorm, adminGetDealer_ready cfg s "AB123" hready, Out_state, Out_val,
    hfindnone]
  simp [hpass, hstatus, dealerRecordNew, hg6, jsOr_empty_right,
    show jsLower "active" = "active" from by decide]

theorem adminCreateDealer_new_state (pbkdf2 : String → String → String) (cfg : Config)
    (s : Sheet) (body : DealerBody) (rand : Nat) (salt now : String)
    (hid : body.dealerId = "AB123") (hname : body.name ≠ "")
    (hpass : jsTrim body.passcode = "") (hstatus : body.status = "")
    (hready : adminReady cfg s)
    (hnod : ∀ d ∈ (adminRowsOf cfg s).map decodeDealerRow,
      normalizeDealerId d.dealerId ≠ "AB123") :
    (adminCreateDealer pbkdf2 cfg s body rand salt now).state
      = (ensureDealerTabLayout cfg
          (adminUpsertDealer cfg s (dealerRecordNew pbkdf2 body rand salt now) now).state
          "AB123").state := by
  have hnorm : normalizeDealerId "AB123" = "AB123" := by decide
  have hfindnone : ((adminRowsOf cfg s).map decodeDealerRow).find?
      (fun d => normalizeDealerId d.dealerId == "AB123") = none := by
    rw [List.find?_eq_none]
    intro d hd
    simpa using hnod d hd
  have hg6 : gen6 rand ≠ "" := gen6_ne_empty rand
  unfold adminCreateDealer
  rw [hid]
  rw [if_neg (fun hor => hor.elim (fun hc => absurd hc (by decide)) (fun hc => hname hc))]
  rw [if_neg (by decide)]
  simp only [hnorm, adminGetDealer_ready cfg s "AB123" hready, Out_state, Out_val,
    hfindnone]
  simp [hpass, hstatus, dealerRecordNew, hg6, jsOr_empty_right,
    show jsLower "active" = "active" from by decide]

/-- The dealer record built by the create handler when a dealer with the
id exists already and no passcode was supplied (dealerId `AB123`, blank
status, existing status `active`). -/
def dealerRecordExisting (body : DealerBody) (d1 : Dealer) (now : String) : Dealer :=
  { dealerId := "AB123", name := body.name, status := "active",
    passcodeHash := d1.passcodeHash, passcode := d1.passcode,
    whatsapp := digitsOnly (jsOr body.whatsapp d1.whatsapp),
    logoUrl := jsOr body.logoUrl d1.logoUrl,
    createdAt := d1.createdAt, updatedAt := now }

theorem adminCreateDealer_existing_val (pbkdf2 : String → String → String) (cfg : Config)
    (s : Sheet) (body : DealerBody) (rand : Nat) (salt now : String) (d1 : Dealer)
    (hid : body.dealerId = "AB123") (hname : body.name ≠ "")
    (hpass : jsTrim body.passcode = "") (hstatus : body.status = "")
    (hready : adminReady cfg s)
    (hfound : ((adminRowsOf cfg s).map decodeDealerRow).find?
      (fun d => normalizeDealerId d.dealerId == "AB123") = some d1)
    (hd1status : d1.status = "active") (hd1created : d1.createdAt ≠ "") :
    (adminCreateDealer pbkdf2 cfg s body rand salt now).val
      = some ⟨dealerRecordExisting body d1 now, ""⟩ := by
  have hnorm : normalizeDealerId "AB123" = "AB123" := by decide
  unfold adminCreateDealer
  rw [hid]
  rw [if_neg (fun hor => hor.elim (fun hc => absurd hc (by decide)) (fun hc => hname hc))]
  rw [if_neg (by decide)]
  simp only [hnorm, adminGetDealer_ready cfg s "AB123" hready, Out_state, Out_val,
    hfound]
  simp [hpass, hstatus, hd1status, hd1created, jsOr_of_ne_empty hd1created,
    dealerRecordExisting,
    show jsOr "active" "active" = "active" from by decide,
    show jsLower "active" = "active" from by decide]

theorem adminCreateDealer_existing_state (pbkdf2 : String → String → String)
    (cfg : Config) (s : Sheet) (body : DealerBody) (rand : Nat) (salt now : String)
    (d1 : Dealer)
    (hid : body.dealerId = "AB123") (hname : body.name ≠ "")
    (hpass : jsTrim body.passcode = "") (hstatus : body.status = "")
    (hready : adminReady cfg s)
    (hfound : ((adminRowsOf cfg s).map decodeDealerRow).find?
      (fun d => normalizeDealerId d.dealerId == "AB123") = some d1)
    (hd1status : d1.status = "active") (hd1created : d1.createdAt ≠ "") :
    (adminCreateDealer pbkdf2 cfg s body rand salt now).state
      = (ensureDealerTabLayout cfg
          (adminUpsertDealer cfg s (dealerRecordExisting body d1 now) now).state
          "AB123").state := by
  have hnorm : normalizeDealerId "AB123" = "AB123" := by decide
  unfold adminCreateDealer
  rw [hid]
  rw [if_neg (fun hor => hor.elim (fun hc => absurd hc (by decide)) (fun hc => hname hc))]
  rw [if_neg (by decide)]
  simp only [hnorm, adminGetDealer_ready cfg s "AB123" hready, Out_state, Out_val,
    hfound]
  simp [hpass, hstatus, hd1status, hd1created, jsOr_of_ne_empty hd1created,
    dealerRecordExisting,
    show jsOr "active" "active" = "active" from by decide,
    show jsLower "active" = "active" from by decide]

theorem findIdx?_append_singleton_aux {α : Type} (p : α → Bool) (x : α)
    (hx : p x = true) :
    ∀ (l : List α) (i : Nat), (∀ y ∈ l, p y = false) →
      List.findIdx? p (l ++ [x]) i = some (i + l.length)
  | [], i, _ => by simp [List.findIdx?_cons, hx]
  | a :: t, i, hl => by
    rw [List.cons_append, List.findIdx?_cons,
      if_neg (by simp [hl a (by simp)]),
      findIdx?_append_singleton_aux p x hx t (i + 1) (fun y hy => hl y (by simp [hy]))]
    rw [List.length_cons]
    congr 1
    omega

theorem findIdx?_append_singleton {α : Type} (p : α → Bool) (l : List α) (x : α)
    (hl : ∀ y ∈ l, p y = false) (hx : p x = true) :
    (l ++ [x]).findIdx? p = some l.length := by
  have h := findIdx?_append_singleton_aux p x hx l 0 hl
  simpa using h

theorem find?_append_singleton {α : Type} (p : α → Bool) (l : List α) (x : α)
    (hl : ∀ y ∈ l, p y = false) (hx : p x = true) :
    (l ++ [x]).find? p = some x := by
  induction l with
  | nil => simp [find?_cons_eq, hx]
  | cons a t ih =>
    rw [List.cons_append, find?_cons_eq, if_neg (by simp [hl a (by simp)])]
    exact ih (fun y hy => hl y (by simp [hy]))

theorem encodeDealerRow_length (d : Dealer) (now : String) :
    (encodeDealerRow d now).length = 9 := by
  simp [encodeDealerRow]

theorem encodeDealerRow_not_blank {d : Dealer} (now : String) (h : d.dealerId ≠ "") :
    rowIsBlank (encodeDealerRow d now) = false := by
  simp [rowIsBlank, encodeDealerRow, h]

theorem trimRowEnd_encodeDealerRow (d : Dealer) (now : String)
    (h : jsOr d.updatedAt now ≠ "") :
    trimRowEnd (encodeDealerRow d now) = encodeDealerRow d now := by
  show trimRowEnd ([d.dealerId, d.name, jsOr d.status "active", jsOr d.passcodeHash "",
      jsOr d.passcode "", jsOr d.whatsapp "", jsOr d.logoUrl "", jsOr d.createdAt now]
      ++ [jsOr d.updatedAt now]) = encodeDealerRow d now
  unfold trimRowEnd
  rw [dropTrailingWhile_append_last _ _ (by simpa using h)]
  rfl

theorem adminRowsOf_eq {cfg : Config} {s : Sheet} {tW : Tab}
    (htW : findTab s cfg.adminTitle = some tW) :
    adminRowsOf cfg s = readRange tW 1 none 9 := by
  unfold adminRowsOf
  rw [htW]
  rfl

theorem adminUpsertDealer_append (cfg : Config) (s : Sheet) (dealer : Dealer)
    (now : String) {tW : Tab}
    (hready : adminReady cfg s) (htW : findTab s cfg.adminTitle = some tW)
    (hnone : ((adminRowsOf cfg s).map decodeDealerRow).findIdx?
      (fun d => d.dealerId == dealer.dealerId) = none) :
    adminUpsertDealer cfg s dealer now
      = ⟨setTab s cfg.adminTitle
           (Tab.mk tW.rowCount (appendRowAt tW.cells 0 (encodeDealerRow dealer now))),
         1, ()⟩ := by
  unfold adminUpsertDealer
  simp only [ensureAdminSheet_noop hready, adminListDealers_ready cfg s hready,
    Out_state, Out_writes, Out_val, hnone, htW, Option.getD_some, Nat.zero_add]

theorem adminUpsertDealer_update (cfg : Config) (s : Sheet) (dealer : Dealer)
    (now : String) {tW : Tab} {i : Nat}
    (hready : adminReady cfg s) (htW : findTab s cfg.adminTitle = some tW)
    (hsome : ((adminRowsOf cfg s).map decodeDealerRow).findIdx?
      (fun d => d.dealerId == dealer.dealerId) = some i) :
    adminUpsertDealer cfg s dealer now
      = ⟨setTab s cfg.adminTitle
           (Tab.mk tW.rowCount (setRowCells tW.cells (i + 1) (encodeDealerRow dealer now))),
         1, ()⟩ := by
  unfold adminUpsertDealer
  simp only [ensureAdminSheet_noop hready, adminListDealers_ready cfg s hready,
    Out_state, Out_writes, Out_val, hsome, htW, Option.getD_some, Nat.zero_add]

/-- Claim C3: on a provisioned admin tab holding no dealer that normalizes
to `AB123`, creating dealer `AB123` with no passcode supplied returns the
generated six-digit numeric passcode together with a hash that
`verifyPasscode` accepts for it, stamps `createdAt` and `updatedAt` with
the call's clock, and appends exactly one admin row; a second create call
for the same dealerId with a different name rewrites that same row in
place — `createdAt` stays the first call's timestamp, `updatedAt` becomes
the second call's, the name is the new one, and the row count of the admin
table does not change. -/
theorem C3_dealer_create_scenario (pbkdf2 : String → String → String) (cfg : Config)
    (s : Sheet) (body1 body2 : DealerBody) (rand rand2 : Nat)
    (salt salt2 now1 now2 : String)
    (hb1id : body1.dealerId = "AB123") (hb1name : body1.name ≠ "")
    (hb1pass : jsTrim body1.passcode = "") (hb1status : body1.status = "")
    (hb2id : body2.dealerId = "AB123") (hb2name : body2.name ≠ "")
    (hb2pass : jsTrim body2.passcode = "") (hb2status : body2.status = "")
    (hready : adminReady cfg s)
    (hnod : ∀ d ∈ (adminRowsOf cfg s).map decodeDealerRow,
      normalizeDealerId d.dealerId ≠ "AB123")
    (hfitA : ∀ r ∈ (tabCells s cfg.adminTitle).drop 1, r.length ≤ 9)
    (hTadmin : cfg.adminTitle ≠ "AB123")
    (hnow1 : now1 ≠ "") (hnow2 : now2 ≠ "")
    (hsalt : '$' ∉ salt.data)
    (hkey : '$' ∉ (pbkdf2 (gen6 rand) salt).data) :
    ∀ res1, (adminCreateDealer pbkdf2 cfg s body1 rand salt now1).val = some res1 →
      res1.passcode = gen6 rand ∧
      (gen6 rand).length = 6 ∧
      (∀ c ∈ (gen6 rand).data, c.isDigit = true) ∧
      verifyPasscode pbkdf2 res1.passcode res1.dealer.passcodeHash = true ∧
      res1.dealer.createdAt = now1 ∧
      res1.dealer.updatedAt = now1 ∧
      adminRowsOf cfg (adminCreateDealer pbkdf2 cfg s body1 rand salt now1).state
        = adminRowsOf cfg s ++ [encodeDealerRow res1.dealer now1] ∧
      (∀ res2,
        (adminCreateDealer pbkdf2 cfg
            (adminCreateDealer pbkdf2 cfg s body1 rand salt now1).state
            body2 rand2 salt2 now2).val = some res2 →
        res2.dealer.createdAt = now1 ∧
        res2.dealer.updatedAt = now2 ∧
        res2.dealer.name = body2.name ∧
        adminRowsOf cfg (adminCreateDealer pbkdf2 cfg
            (adminCreateDealer pbkdf2 cfg s body1 rand salt now1).state
            body2 rand2 salt2 now2).state
          = (adminRowsOf cfg
              (adminCreateDealer pbkdf2 cfg s body1 rand salt now1).state).set
              ((adminRowsOf cfg s).length) (encodeDealerRow res2.dealer now2) ∧
        (adminRowsOf cfg (adminCreateDealer pbkdf2 cfg
            (adminCreateDealer pbkdf2 cfg s body1 rand salt now1).state
            body2 rand2 salt2 now2).state).length
          = (adminRowsOf cfg
              (adminCreateDealer pbkdf2 cfg s body1 rand salt now1).state).length) := by
  obtain ⟨⟨tW0, htW, hge⟩, hokA⟩ := id hready
  obtain ⟨rcW, cellsW⟩ := tW0
  obtain ⟨t2, ht2, hjA⟩ := id hokA
  rw [htW] at ht2
  injection ht2 with ht2
  subst ht2
  rw [readRow_eq] at hjA
  have hheadA : rowIsBlank (cellsW.headD []) = false :=
    header_row_not_blank (by decide) hjA
  have hfitA2 : ∀ r ∈ cellsW.drop 1, r.length ≤ 9 := by
    unfold tabCells at hfitA
    rw [htW] at hfitA
    exact hfitA
  have hsafe : safeDealerTabName "AB123" = "AB123" := by decide
  have hval1 := adminCreateDealer_new_val pbkdf2 cfg s body1 rand salt now1 hb1id hb1name
    hb1pass hb1status hready hnod
  have hstate1 := adminCreateDealer_new_state pbkdf2 cfg s body1 rand salt now1 hb1id
    hb1name hb1pass hb1status hready hnod
  have hnone1 : ((adminRowsOf cfg s).map decodeDealerRow).findIdx?
      (fun d => d.dealerId == (dealerRecordNew pbkdf2 body1 rand salt now1).dealerId)
      = none := by
    rw [List.findIdx?_eq_none_iff]
    intro d hd
    have hne : d.dealerId ≠ "AB123" := fun hc => hnod d hd (by rw [hc]; decide)
    show (d.dealerId == "AB123") = false
    simpa using hne
  have hup1 := adminUpsertDealer_append cfg s
    (dealerRecordNew pbkdf2 body1 rand salt now1) now1 hready htW hnone1
  have hfind1 : findTab (adminCreateDealer pbkdf2 cfg s body1 rand salt now1).state
      cfg.adminTitle
      = some (Tab.mk rcW (appendRowAt cellsW 0
          (encodeDealerRow (dealerRecordNew pbkdf2 body1 rand salt now1) now1))) := by
    rw [hstate1, hup1]
    simp only [Out_state, Tab_rowCount, Tab_cells]
    rw [findTab_ensureDealerTabLayout_ne _ _ _ _ (by rw [hsafe]; exact hTadmin)]
    exact findTab_setTab_self _ _ _ (by rw [htW]; rfl)
  have hrow1 : (trimRowEnd ((encodeDealerRow
      (dealerRecordNew pbkdf2 body1 rand salt now1) now1).take 9)).isEmpty = false := by
    rw [trimRow_take_isEmpty (le_of_eq (encodeDealerRow_length _ _))]
    exact encodeDealerRow_not_blank now1 (show ("AB123" : String) ≠ "" by decide)
  have hu1 : jsOr (dealerRecordNew pbkdf2 body1 rand salt now1).updatedAt now1 ≠ "" := by
    show jsOr now1 now1 ≠ ""
    rw [jsOr_of_ne_empty hnow1]
    exact hnow1
  have hrows1 : adminRowsOf cfg
      (adminCreateDealer pbkdf2 cfg s body1 rand salt now1).state
      = adminRowsOf cfg s
        ++ [encodeDealerRow (dealerRecordNew pbkdf2 body1 rand salt now1) now1] := by
    rw [adminRowsOf_eq hfind1, adminRowsOf_eq htW]
    rw [readRange_one_appendRowAt_zero rcW rcW cellsW 9 _ hheadA hfitA2 hrow1]
    rw [List.take_of_length_le (le_of_eq (encodeDealerRow_length _ _)),
      trimRowEnd_encodeDealerRow _ _ hu1]
  have hprov1 : tabProvisioned
      (adminCreateDealer pbkdf2 cfg s body1 rand salt now1).state cfg.adminTitle 200 := by
    refine ⟨_, hfind1, ?_⟩
    simpa using hge
  have hok1' : headerOk (adminCreateDealer pbkdf2 cfg s body1 rand salt now1).state
      cfg.adminTitle 0 ADMIN_HEADERS := by
    refine ⟨_, hfind1, ?_⟩
    rw [readRow_eq, getD_appendRowAt_zero _ _ hheadA]
    exact hjA
  have hready1 : adminReady cfg
      (adminCreateDealer pbkdf2 cfg s body1 rand salt now1).state := ⟨hprov1, hok1'⟩
  have hdec1 : decodeDealerRow (encodeDealerRow
      (dealerRecordNew pbkdf2 body1 rand salt now1) now1)
      = dealerRecordNew pbkdf2 body1 rand salt now1 :=
    decode_encode_dealer _ now1 (show ("active" : String) ≠ "" by decide)
      (show jsLower "active" = "active" by decide)
      (show now1 ≠ "" from hnow1) (show now1 ≠ "" from hnow1)
  have hmap1 : ((adminRowsOf cfg
      (adminCreateDealer pbkdf2 cfg s body1 rand salt now1).state).map decodeDealerRow)
      = ((adminRowsOf cfg s).map decodeDealerRow)
        ++ [dealerRecordNew pbkdf2 body1 rand salt now1] := by
    rw [hrows1, List.map_append]
    simp [hdec1]
  have hfound2 : ((adminRowsOf cfg
      (adminCreateDealer pbkdf2 cfg s body1 rand salt now1).state).map
        decodeDealerRow).find? (fun d => normalizeDealerId d.dealerId == "AB123")
      = some (dealerRecordNew pbkdf2 body1 rand salt now1) := by
    rw [hmap1]
    refine find?_append_singleton _ _ _ ?_ ?_
    · intro y hy
      have hne := hnod y hy
      simpa using hne
    · show (normalizeDealerId "AB123" == "AB123") = true
      decide
  have hval2 := adminCreateDealer_existing_val pbkdf2 cfg
    (adminCreateDealer pbkdf2 cfg s body1 rand salt now1).state body2 rand2 salt2 now2
    (dealerRecordNew pbkdf2 body1 rand salt now1) hb2id hb2name hb2pass hb2status
    hready1 hfound2 rfl (show now1 ≠ "" from hnow1)
  have hstate2 := adminCreateDealer_existing_state pbkdf2 cfg
    (adminCreateDealer pbkdf2 cfg s body1 rand salt now1).state body2 rand2 salt2 now2
    (dealerRecordNew pbkdf2 body1 rand salt now1) hb2id hb2name hb2pass hb2status
    hready1 hfound2 rfl (show now1 ≠ "" from hnow1)
  have hidx2 : ((adminRowsOf cfg
      (adminCreateDealer pbkdf2 cfg s body1 rand salt now1).state).map
        decodeDealerRow).findIdx?
      (fun d => d.dealerId == (dealerRecordExisting body2
        (dealerRecordNew pbkdf2 body1 rand salt now1) now2).dealerId)
      = some ((adminRowsOf cfg s).length) := by
    rw [hmap1]
    have hlen : ((adminRowsOf cfg s).map decodeDealerRow).length
        = (adminRowsOf cfg s).length := by simp
    rw [← hlen]
    refine findIdx?_append_singleton _ _ _ ?_ ?_
    · intro y hy
      have hne : y.dealerId ≠ "AB123" := fun hc => hnod y hy (by rw [hc]; decide)
      show (y.dealerId == "AB123") = false
      simpa using hne
    · show (("AB123" : String) == "AB123") = true
      decide
  have hup2 := adminUpsertDealer_update cfg
    (adminCreateDealer pbkdf2 cfg s body1 rand salt now1).state
    (dealerRecordExisting body2 (dealerRecordNew pbkdf2 body1 rand salt now1) now2)
    now2 hready1 hfind1 hidx2
  have hfind2 : findTab (adminCreateDealer pbkdf2 cfg
      (adminCreateDealer pbkdf2 cfg s body1 rand salt now1).state
      body2 rand2 salt2 now2).state cfg.adminTitle
      = some (Tab.mk rcW (setRowCells
          (appendRowAt cellsW 0
            (encodeDealerRow (dealerRecordNew pbkdf2 body1 rand salt now1) now1))
          ((adminRowsOf cfg s).length + 1)
          (encodeDealerRow (dealerRecordExisting body2
            (dealerRecordNew pbkdf2 body1 rand salt now1) now2) now2))) := by
    rw [hstate2, hup2]
    simp only [Out_state, Tab_rowCount, Tab_cells]
    rw [findTab_ensureDealerTabLayout_ne _ _ _ _ (by rw [hsafe]; exact hTadmin)]
    exact findTab_setTab_self _ _ _ (by rw [hfind1]; rfl)
  have hrow2 : (trimRowEnd ((encodeDealerRow
      (dealerRecordExisting body2 (dealerRecordNew pbkdf2 body1 rand salt now1) now2)
      now2).take 9)).isEmpty = false := by
    rw [trimRow_take_isEmpty (le_of_eq (encodeDealerRow_length _ _))]
    exact encodeDealerRow_not_blank now2 (show ("AB123" : String) ≠ "" by decide)
  have hu2 : jsOr (dealerRecordExisting body2
      (dealerRecordNew pbkdf2 body1 rand salt now1) now2).updatedAt now2 ≠ "" := by
    show jsOr now2 now2 ≠ ""
    rw [jsOr_of_ne_empty hnow2]
    exact hnow2
  have hreg1 : readRange (Tab.mk rcW (appendRowAt cellsW 0
      (encodeDealerRow (dealerRecordNew pbkdf2 body1 rand salt now1) now1))) 1 none 9
      = adminRowsOf cfg s
        ++ [encodeDealerRow (dealerRecordNew pbkdf2 body1 rand salt now1) now1] := by
    rw [← adminRowsOf_eq hfind1]
    exact hrows1
  have hi2 : (adminRowsOf cfg s).length
      < (readRange (Tab.mk rcW (appendRowAt cellsW 0
          (encodeDealerRow (dealerRecordNew pbkdf2 body1 rand salt now1) now1)))
          1 none 9).length := by
    rw [hreg1]
    simp
  have hrows2 : adminRowsOf cfg (adminCreateDealer pbkdf2 cfg
      (adminCreateDealer pbkdf2 cfg s body1 rand salt now1).state
      body2 rand2 salt2 now2).state
      = (adminRowsOf cfg
          (adminCreateDealer pbkdf2 cfg s body1 rand salt now1).state).set
          ((adminRowsOf cfg s).length)
          (encodeDealerRow (dealerRecordExisting body2
            (dealerRecordNew pbkdf2 body1 rand salt now1) now2) now2) := by
    rw [adminRowsOf_eq hfind2]
    rw [show (adminRowsOf cfg s).length + 1 = 1 + (adminRowsOf cfg s).length from
      by omega]
    rw [readRange_setRowCells rcW rcW _ 1 9 ((adminRowsOf cfg s).length) _ hi2 hrow2]
    rw [← adminRowsOf_eq hfind1]
    rw [List.take_of_length_le (le_of_eq (encodeDealerRow_length _ _)),
      trimRowEnd_encodeDealerRow _ _ hu2]
  intro res1 hres1
  rw [hval1] at hres1
  injection hres1 with hres1
  subst hres1
  refine ⟨rfl, gen6_length rand, gen6_digits rand, ?_, rfl, rfl, hrows1, ?_⟩
  · show verifyPasscode pbkdf2 (gen6 rand) (hashPasscode pbkdf2 (gen6 rand) salt) = true
    exact verifyPasscode_hashPasscode pbkdf2 (gen6 rand) salt hsalt hkey
  · intro res2 hres2
    rw [hval2] at hres2
    injection hres2 with hres2
    subst hres2
    refine ⟨rfl, rfl, rfl, hrows2, ?_⟩
    rw [hrows2, List.length_set]

def bodyD1 : DealerBody := ⟨"AB123", "Best Cars", "", "", "", ""⟩

def bodyD2 : DealerBody := ⟨"AB123", "Better Cars", "", "", "", ""⟩

def res1W : CreateDealerResult :=
  ⟨dealerRecordNew (fun _ _ => "deadbeef") bodyD1 0 "abc" "T1", gen6 0⟩

/-- Witness for C3 at a concrete provisioned admin tab and a fixed key
derivation function. -/
theorem C3_dealer_create_scenario_witness :
    res1W.passcode = gen6 0 ∧
    (gen6 0).length = 6 ∧
    (∀ c ∈ (gen6 0).data, c.isDigit = true) ∧
    verifyPasscode (fun _ _ => "deadbeef") res1W.passcode res1W.dealer.passcodeHash
      = true ∧
    res1W.dealer.createdAt = "T1" ∧
    res1W.dealer.updatedAt = "T1" ∧
    adminRowsOf cfgW (adminCreateDealer (fun _ _ => "deadbeef") cfgW sheetW bodyD1 0
        "abc" "T1").state
      = adminRowsOf cfgW sheetW ++ [encodeDealerRow res1W.dealer "T1"] := by
  have h := C3_dealer_create_scenario (fun _ _ => "deadbeef") cfgW sheetW bodyD1 bodyD2
    0 1 "abc" "abc" "T1" "T2"
    (by decide) (by decide) (by decide) (by decide)
    (by decide) (by decide) (by decide) (by decide)
    ⟨⟨adminTabW, by decide, by decide⟩, ⟨adminTabW, by decide, by decide⟩⟩
    (by decide) (by decide) (by decide) (by decide) (by decide)
    (by decide) (by decide)
    res1W
    (adminCreateDealer_new_val (fun _ _ => "deadbeef") cfgW sheetW bodyD1 0 "abc" "T1"
      (by decide) (by decide) (by decide) (by decide)
      ⟨⟨adminTabW, by decide, by decide⟩, ⟨adminTabW, by decide, by decide⟩⟩
      (by decide))
  exact ⟨h.1, h.2.1, h.2.2.1, h.2.2.2.1, h.2.2.2.2.1, h.2.2.2.2.2.1, h.2.2.2.2.2.2.1⟩

end CarSales
